import Mathlib

/-!
Verification development for the dogfight combat-simulation core.

This file shallowly embeds the simulation core of the repository
(flight-dynamics integrator, guided-missile system with lock-on and
countermeasures, enemy AI state machine, gun-projectile pool) into Lean 4
and proves the stated behavioural properties about the embedding.

JavaScript floating-point numbers are modelled as real numbers; the
`Math.random()` calls are modelled as explicit oracle inputs (a sampled
value is passed in, and the code compares it against the configured
probability exactly as the source does).  Vector and quaternion
operations follow the three.js implementations used by the game
(componentwise formulas, including the zero-length guards of
`Vector3.normalize` and `Quaternion.normalize`).
-/

noncomputable section
open Classical

/-! ## three.js vector and quaternion primitives -/

/-- A 3-component vector (three.js `Vector3`). -/
@[ext] structure Vec3 where
  x : ℝ
  y : ℝ
  z : ℝ

def v3 (x y z : ℝ) : Vec3 := ⟨x, y, z⟩

instance : Add Vec3 := ⟨fun a b => ⟨a.x + b.x, a.y + b.y, a.z + b.z⟩⟩
instance : Sub Vec3 := ⟨fun a b => ⟨a.x - b.x, a.y - b.y, a.z - b.z⟩⟩

/-- three.js `Vector3.multiplyScalar`. -/
def smul3 (s : ℝ) (v : Vec3) : Vec3 := ⟨s * v.x, s * v.y, s * v.z⟩

/-- three.js `Vector3.dot`. -/
def dot3 (a b : Vec3) : ℝ := a.x * b.x + a.y * b.y + a.z * b.z

/-- three.js `Vector3.cross`. -/
def cross3 (a b : Vec3) : Vec3 :=
  ⟨a.y * b.z - a.z * b.y, a.z * b.x - a.x * b.z, a.x * b.y - a.y * b.x⟩

/-- three.js `Vector3.lengthSq`. -/
def normSq3 (v : Vec3) : ℝ := v.x * v.x + v.y * v.y + v.z * v.z

/-- three.js `Vector3.length`. -/
def norm3 (v : Vec3) : ℝ := Real.sqrt (normSq3 v)

/-- three.js `Vector3.distanceTo`. -/
def dist3 (a b : Vec3) : ℝ := norm3 (a - b)

/-- three.js `Vector3.normalize`: `divideScalar(length() || 1)` — the zero
vector is left unchanged. -/
def normalize3 (v : Vec3) : Vec3 :=
  smul3 (1 / (if norm3 v = 0 then 1 else norm3 v)) v

/-- three.js `Vector3.negate`. -/
def neg3 (v : Vec3) : Vec3 := ⟨-v.x, -v.y, -v.z⟩

/-- three.js `Vector3.lerp`: componentwise `this + (v - this) * alpha`. -/
def lerp3 (a b : Vec3) (t : ℝ) : Vec3 :=
  ⟨a.x + (b.x - a.x) * t, a.y + (b.y - a.y) * t, a.z + (b.z - a.z) * t⟩

/-- `THREE.MathUtils.clamp( value, min, max )`. -/
def clampR (value lo hi : ℝ) : ℝ := max lo (min hi value)

/-- `THREE.MathUtils.lerp( x, y, t )`. -/
def lerpR (a b t : ℝ) : ℝ := (1 - t) * a + t * b

/-- `Math.atan2(y, x)`, modelled by the complex argument. -/
def atan2 (y x : ℝ) : ℝ := Complex.arg ⟨x, y⟩

/-- A quaternion in three.js component order. -/
@[ext] structure Quat where
  x : ℝ
  y : ℝ
  z : ℝ
  w : ℝ

def quatIdentity : Quat := ⟨0, 0, 0, 1⟩

def quatNormSq (q : Quat) : ℝ := q.x * q.x + q.y * q.y + q.z * q.z + q.w * q.w

def quatLength (q : Quat) : ℝ := Real.sqrt (quatNormSq q)

/-- three.js `Quaternion.normalize`: zero quaternion becomes the identity. -/
def quatNormalize (q : Quat) : Quat :=
  if quatLength q = 0 then quatIdentity
  else ⟨q.x / quatLength q, q.y / quatLength q, q.z / quatLength q, q.w / quatLength q⟩

/-- three.js `Quaternion.multiplyQuaternions(a, b)`. -/
def quatMul (a b : Quat) : Quat :=
  ⟨a.x * b.w + a.w * b.x + a.y * b.z - a.z * b.y,
   a.y * b.w + a.w * b.y + a.z * b.x - a.x * b.z,
   a.z * b.w + a.w * b.z + a.x * b.y - a.y * b.x,
   a.w * b.w - a.x * b.x - a.y * b.y - a.z * b.z⟩

/-- three.js `Quaternion.setFromAxisAngle` (axis assumed normalized by caller). -/
def quatFromAxisAngle (axis : Vec3) (angle : ℝ) : Quat :=
  ⟨axis.x * Real.sin (angle / 2), axis.y * Real.sin (angle / 2),
   axis.z * Real.sin (angle / 2), Real.cos (angle / 2)⟩

/-- three.js `Vector3.applyQuaternion`:
`t = 2 * cross(q.xyz, v); v + q.w * t + cross(q.xyz, t)`. -/
def applyQuaternion (v : Vec3) (q : Quat) : Vec3 :=
  let tx := 2 * (q.y * v.z - q.z * v.y)
  let ty := 2 * (q.z * v.x - q.x * v.z)
  let tz := 2 * (q.x * v.y - q.y * v.x)
  ⟨v.x + q.w * tx + q.y * tz - q.z * ty,
   v.y + q.w * ty + q.z * tx - q.x * tz,
   v.z + q.w * tz + q.x * ty - q.y * tx⟩

/-- `Number.EPSILON`. -/
def numberEpsilon : ℝ := 1 / 2 ^ 52

/-- three.js `Quaternion.setFromUnitVectors`. -/
def setFromUnitVectors (vFrom vTo : Vec3) : Quat :=
  let r := dot3 vFrom vTo + 1
  if r < numberEpsilon then
    if |vFrom.x| > |vFrom.z| then quatNormalize ⟨-vFrom.y, vFrom.x, 0, 0⟩
    else quatNormalize ⟨0, -vFrom.z, vFrom.y, 0⟩
  else
    quatNormalize ⟨vFrom.y * vTo.z - vFrom.z * vTo.y,
                   vFrom.z * vTo.x - vFrom.x * vTo.z,
                   vFrom.x * vTo.y - vFrom.y * vTo.x, r⟩

/-- three.js `Quaternion.slerp(qb, t)` applied to `qa`. -/
def quatSlerp (qa qb : Quat) (t : ℝ) : Quat :=
  if t = 0 then qa
  else if t = 1 then qb
  else
    let cosHalfTheta := qa.w * qb.w + qa.x * qb.x + qa.y * qb.y + qa.z * qb.z
    let q1 : Quat := if cosHalfTheta < 0 then ⟨-qb.x, -qb.y, -qb.z, -qb.w⟩ else qb
    let cht := if cosHalfTheta < 0 then -cosHalfTheta else cosHalfTheta
    if 1 ≤ cht then qa
    else
      let sqrSinHalfTheta := 1 - cht * cht
      if sqrSinHalfTheta ≤ numberEpsilon then
        let s := 1 - t
        quatNormalize ⟨s * qa.x + t * q1.x, s * qa.y + t * q1.y,
                       s * qa.z + t * q1.z, s * qa.w + t * q1.w⟩
      else
        let sinHalfTheta := Real.sqrt sqrSinHalfTheta
        let halfTheta := atan2 sinHalfTheta cht
        let ratioA := Real.sin ((1 - t) * halfTheta) / sinHalfTheta
        let ratioB := Real.sin (t * halfTheta) / sinHalfTheta
        ⟨qa.x * ratioA + q1.x * ratioB, qa.y * ratioA + q1.y * ratioB,
         qa.z * ratioA + q1.z * ratioB, qa.w * ratioA + q1.w * ratioB⟩

/-! ## Configuration constants (`src/config.js`) -/

namespace PHYSICS

def GRAVITY : ℝ := 9.81
def AIR_DENSITY_SEA_LEVEL : ℝ := 1.225
def WING_AREA : ℝ := 38
def aspectRatio : ℝ := 3.18
def OSWALD_EFFICIENCY : ℝ := 0.85
def CD0 : ℝ := 0.015
def CL_MAX : ℝ := 2.0
def CL_PER_AOA : ℝ := 6.0
def MAX_AOA : ℝ := 0.35
def STALL_AOA : ℝ := 0.30
def MASS : ℝ := 7000
def MAX_THRUST : ℝ := 180000
def IDLE_THRUST : ℝ := 20000
def MAX_SPEED : ℝ := 700
def MIN_SPEED_FOR_CONTROL : ℝ := 30
def PITCH_RATE : ℝ := 2.5
def ROLL_RATE : ℝ := 4.5
def YAW_RATE : ℝ := 1.2
def PITCH_DAMPING : ℝ := 5.0
def ROLL_DAMPING : ℝ := 6.0
def YAW_DAMPING : ℝ := 4.0
def VELOCITY_ALIGNMENT : ℝ := 2.5
def MIN_SPEED_CLAMP : ℝ := 80

end PHYSICS

namespace WEAPONS

namespace MACHINE_GUN
def DAMAGE : ℝ := 8
def PROJECTILE_LIFE : ℝ := 2
end MACHINE_GUN

namespace MISSILE
def COUNT : ℤ := 4
def SPEED : ℝ := 700
def MAX_TURN_RATE : ℝ := 120
def LOCK_TIME : ℝ := 1.5
def LOCK_CONE : ℝ := 0.4
def GUIDANCE_GAIN : ℝ := 8
def MAX_RANGE : ℝ := 1500
def LIFE_TIME : ℝ := 8
def DAMAGE : ℝ := 100
def ARM_DISTANCE : ℝ := 60
def PROXIMITY_FUSE : ℝ := 15
def JINK_EVADE_CHANCE : ℝ := 0.6
def JINK_G_MIN : ℝ := 15
end MISSILE

namespace FLARES
def DECOY_CHANCE : ℝ := 0.20
end FLARES

end WEAPONS

namespace ENEMY
def DETECTION_RANGE : ℝ := 3500
def DISENGAGE_RANGE : ℝ := 5000
def PATROL_RADIUS : ℝ := 2000
def REACTION_TIME : ℝ := 1.2
end ENEMY

namespace WORLD
def BOUNDARY_SOFT : ℝ := 7000
def BOUNDARY_HARD : ℝ := 9000
end WORLD

/-! ## Basic norm lemmas -/

theorem normSq3_nonneg (v : Vec3) : 0 ≤ normSq3 v := by
  unfold normSq3
  nlinarith [mul_self_nonneg v.x, mul_self_nonneg v.y, mul_self_nonneg v.z]

theorem norm3_nonneg (v : Vec3) : 0 ≤ norm3 v := Real.sqrt_nonneg _

theorem norm3_sq (v : Vec3) : norm3 v * norm3 v = normSq3 v :=
  Real.mul_self_sqrt (normSq3_nonneg v)

theorem normSq3_eq_zero_iff (v : Vec3) : normSq3 v = 0 ↔ v = v3 0 0 0 := by
  unfold normSq3 v3
  constructor
  · intro h
    have hx : v.x = 0 := by nlinarith [sq_nonneg v.x, sq_nonneg v.y, sq_nonneg v.z]
    have hy : v.y = 0 := by nlinarith [sq_nonneg v.x, sq_nonneg v.y, sq_nonneg v.z]
    have hz : v.z = 0 := by nlinarith [sq_nonneg v.x, sq_nonneg v.y, sq_nonneg v.z]
    cases v; simp_all
  · intro h; rw [h]; norm_num

theorem norm3_eq_zero_iff (v : Vec3) : norm3 v = 0 ↔ v = v3 0 0 0 := by
  unfold norm3
  rw [Real.sqrt_eq_zero (normSq3_nonneg v)]
  exact normSq3_eq_zero_iff v

theorem norm3_pos_of_ne (v : Vec3) (h : v ≠ v3 0 0 0) : 0 < norm3 v := by
  rcases lt_or_eq_of_le (norm3_nonneg v) with h' | h'
  · exact h'
  · exact absurd ((norm3_eq_zero_iff v).mp h'.symm) h

theorem normSq3_smul (s : ℝ) (v : Vec3) : normSq3 (smul3 s v) = s ^ 2 * normSq3 v := by
  unfold normSq3 smul3; ring

theorem norm3_smul (s : ℝ) (v : Vec3) : norm3 (smul3 s v) = |s| * norm3 v := by
  unfold norm3
  rw [normSq3_smul, Real.sqrt_mul (sq_nonneg s), Real.sqrt_sq_eq_abs]

theorem norm3_normalize3 (v : Vec3) (h : v ≠ v3 0 0 0) : norm3 (normalize3 v) = 1 := by
  have hp := norm3_pos_of_ne v h
  unfold normalize3
  rw [if_neg (ne_of_gt hp), norm3_smul]
  rw [abs_of_pos (by positivity)]
  field_simp

theorem normalize3_zero : normalize3 (v3 0 0 0) = v3 0 0 0 := by
  have h0 : norm3 (v3 0 0 0) = 0 := (norm3_eq_zero_iff _).mpr rfl
  unfold normalize3
  rw [h0, if_pos rfl]
  unfold smul3 v3; norm_num

theorem norm3_normalize3_le_one (v : Vec3) : norm3 (normalize3 v) ≤ 1 := by
  by_cases h : v = v3 0 0 0
  · subst h
    rw [normalize3_zero, (norm3_eq_zero_iff _).mpr rfl]
    norm_num
  · rw [norm3_normalize3 v h]

theorem normalize3_y_zero (v : Vec3) (h : v.y = 0) : (normalize3 v).y = 0 := by
  unfold normalize3 smul3; rw [h]; ring

/-- Velocity renormalisation `v.normalize().multiplyScalar(s)` has length `s`
whenever `v` is non-zero and `s` is non-negative. -/
theorem norm3_renorm (v : Vec3) (s : ℝ) (hv : v ≠ v3 0 0 0) (hs : 0 ≤ s) :
    norm3 (smul3 s (normalize3 v)) = s := by
  rw [norm3_smul, norm3_normalize3 v hv, abs_of_nonneg hs, mul_one]

/-- three.js `applyQuaternion` preserves the squared length for unit
quaternions (rotation formula). -/
theorem normSq3_applyQuaternion (v : Vec3) (q : Quat) (h : quatNormSq q = 1) :
    normSq3 (applyQuaternion v q) = normSq3 v := by
  unfold quatNormSq at h
  unfold normSq3 applyQuaternion
  linear_combination (4 * (q.x * q.x + q.y * q.y + q.z * q.z) *
      (v.x * v.x + v.y * v.y + v.z * v.z) -
      4 * (q.x * v.x + q.y * v.y + q.z * v.z) ^ 2) * h

theorem norm3_applyQuaternion (v : Vec3) (q : Quat) (h : quatNormSq q = 1) :
    norm3 (applyQuaternion v q) = norm3 v := by
  unfold norm3; rw [normSq3_applyQuaternion v q h]

/-- `setFromAxisAngle` with a unit axis yields a unit quaternion. -/
theorem quatNormSq_fromAxisAngle (axis : Vec3) (angle : ℝ)
    (h : normSq3 axis = 1) : quatNormSq (quatFromAxisAngle axis angle) = 1 := by
  unfold quatNormSq quatFromAxisAngle
  unfold normSq3 at h
  have hsc := Real.sin_sq_add_cos_sq (angle / 2)
  nlinarith [hsc]

theorem normSq3_normalize3 (v : Vec3) (h : v ≠ v3 0 0 0) : normSq3 (normalize3 v) = 1 := by
  have h1 := norm3_normalize3 v h
  have := norm3_sq (normalize3 v)
  rw [h1] at this; linarith

theorem applyQuaternion_ne_zero (v : Vec3) (q : Quat) (h : quatNormSq q = 1)
    (hv : v ≠ v3 0 0 0) : applyQuaternion v q ≠ v3 0 0 0 := by
  intro hz
  have h1 := normSq3_applyQuaternion v q h
  rw [hz] at h1
  have h2 : normSq3 (v3 0 0 0) = 0 := by unfold normSq3 v3; ring
  rw [h2] at h1
  exact hv ((normSq3_eq_zero_iff v).mp h1.symm)

/-! ## Lock-on state machine (`MissileSystem.updateLock`, `src/weapons/Missile.js`)

Aircraft are identified by natural-number ids; `===` reference equality on
target objects is modelled as id equality. -/

/-- Observation of one candidate target for the lock scan. -/
structure LockTarget where
  tid : ℕ
  pos : Vec3
  alive : Bool

/-- The player lock state owned by `MissileSystem`. -/
structure LockState where
  lockTimer : ℝ
  lockedTarget : Option ℕ
  lockingTarget : Option ℕ
  lockProgress : ℝ

/-- Initial lock state from the `MissileSystem` constructor. -/
def initLockState : LockState :=
  { lockTimer := 0, lockedTarget := none, lockingTarget := none, lockProgress := 0 }

/-- The candidate scan of `MissileSystem.updateLock`: pick the alive target
with the best forward-alignment dot product above `cos(LOCK_CONE)` that is
within `MAX_RANGE`. -/
def bestCandidate (forward apos : Vec3) (targets : List LockTarget) : Option ℕ × ℝ :=
  targets.foldl
    (fun acc target =>
      if target.alive = false then acc
      else
        let toTarget := normalize3 (target.pos - apos)
        let d := dot3 forward toTarget
        let dist := dist3 apos target.pos
        if acc.2 < d ∧ dist < WEAPONS.MISSILE.MAX_RANGE then (some target.tid, d) else acc)
    (none, Real.cos WEAPONS.MISSILE.LOCK_CONE)

/-- The state transition of `MissileSystem.updateLock` once the best
candidate has been computed. -/
def updateLockStep (s : LockState) (best : Option ℕ) (dt : ℝ) : LockState :=
  match best with
  | some t =>
    if s.lockingTarget = some t then
      let timer := s.lockTimer + dt
      { s with
        lockTimer := timer,
        lockProgress := min 1 (timer / WEAPONS.MISSILE.LOCK_TIME),
        lockedTarget := if WEAPONS.MISSILE.LOCK_TIME ≤ timer then some t else s.lockedTarget }
    else
      { lockingTarget := some t, lockTimer := 0, lockProgress := 0, lockedTarget := none }
  | none =>
      { lockingTarget := none, lockTimer := 0, lockProgress := 0, lockedTarget := none }

/-- `MissileSystem.updateLock(aircraft, targets, dt)`: scan for the best
candidate, then run the lock state transition. -/
def MissileSystem.updateLock (s : LockState) (forward apos : Vec3)
    (targets : List LockTarget) (dt : ℝ) : LockState :=
  updateLockStep s (bestCandidate forward apos targets).1 dt

/-- The lock state the instant target `t` becomes the best candidate (the
`else` branch of `updateLock` just made it the locking target). -/
def lockAcquireState (t : ℕ) : LockState :=
  { lockTimer := 0, lockedTarget := none, lockingTarget := some t, lockProgress := 0 }

theorem updateLockStep_iterate (t : ℕ) (n : ℕ) :
    (fun s => updateLockStep s (some t) (1 / 60))^[n] (lockAcquireState t) =
      { lockTimer := n / 60,
        lockedTarget := if 90 ≤ n then some t else none,
        lockingTarget := some t,
        lockProgress := min 1 (n / 90) } := by
  induction n with
  | zero =>
    simp only [Function.iterate_zero, id]
    unfold lockAcquireState
    norm_num
  | succ k ih =>
    rw [Function.iterate_succ_apply', ih]
    unfold updateLockStep
    dsimp only
    rw [if_pos rfl]
    have h60 : ((k : ℝ)) / 60 + 1 / 60 = ((k : ℝ) + 1) / 60 := by ring
    have hprog : ((k : ℝ) + 1) / 60 / WEAPONS.MISSILE.LOCK_TIME = ((k : ℝ) + 1) / 90 := by
      unfold WEAPONS.MISSILE.LOCK_TIME
      norm_num
      ring
    have hcmp : (WEAPONS.MISSILE.LOCK_TIME ≤ ((k : ℝ) + 1) / 60) ↔ 90 ≤ k + 1 := by
      unfold WEAPONS.MISSILE.LOCK_TIME
      constructor
      · intro h
        by_contra hc
        push_neg at hc
        have hk : k + 1 ≤ 89 := by omega
        have hk2 : ((k : ℝ) + 1) ≤ 89 := by exact_mod_cast hk
        norm_num at h
        nlinarith
      · intro h
        have hk : (90 : ℝ) ≤ (k : ℝ) + 1 := by exact_mod_cast h
        norm_num
        nlinarith
    congr 1
    · push_cast; ring
    · rw [h60]
      by_cases hn : 90 ≤ k + 1
      · rw [if_pos (hcmp.mpr hn), if_pos hn]
      · rw [if_neg (fun hh => hn (hcmp.mp hh)), if_neg hn,
            if_neg (by omega : ¬ 90 ≤ k)]
    · rw [h60, hprog]
      push_cast
      ring_nf

/-- C1: Lock-on state machine.  (1) Whenever the computed best candidate
differs from the current locking target (including losing all candidates),
`updateLock` resets the lock timer and lock progress to 0 and clears the
locked target, making the new candidate the locking target.  (2) From the
state in which a target `t` has just become the best candidate (lock timer
0), with `LOCK_TIME = 1.5 s` and a constant 60 Hz tick `dt = 1/60`, the
locked-target field is set after exactly 90 consecutive ticks on which `t`
stays the best candidate and lock time accumulates — after fewer ticks the
target is not locked, so promotion happens exactly when the accumulated
lock time reaches the full lock duration. -/
theorem lockOn_state_machine :
    (∀ (s : LockState) (best : Option ℕ) (dt : ℝ), best ≠ s.lockingTarget →
       (updateLockStep s best dt).lockTimer = 0 ∧
       (updateLockStep s best dt).lockProgress = 0 ∧
       (updateLockStep s best dt).lockedTarget = none ∧
       (updateLockStep s best dt).lockingTarget = best) ∧
    (∀ (t : ℕ) (n : ℕ),
       ((fun s => updateLockStep s (some t) (1 / 60))^[n] (lockAcquireState t)).lockedTarget
         = some t ↔ 90 ≤ n) := by
  constructor
  · intro s best dt h
    match best with
    | none => exact ⟨rfl, rfl, rfl, rfl⟩
    | some t =>
      unfold updateLockStep
      dsimp only
      rw [if_neg (fun hh => h hh.symm)]
      exact ⟨rfl, rfl, rfl, rfl⟩
  · intro t n
    rw [updateLockStep_iterate]
    by_cases h : 90 ≤ n
    · simp [h]
    · simp [h]

/-- Witness for C1: a change of best candidate clears the locked target, and
90 accumulating ticks (but not 89) promote the locking target to locked. -/
theorem lockOn_state_machine_witness :
    (updateLockStep (lockAcquireState 0) (some 1) (1 / 60)).lockedTarget = none ∧
    ((fun s => updateLockStep s (some 0) (1 / 60))^[90] (lockAcquireState 0)).lockedTarget
      = some 0 ∧
    ¬ ((fun s => updateLockStep s (some 0) (1 / 60))^[89] (lockAcquireState 0)).lockedTarget
      = some 0 := by
  refine ⟨(lockOn_state_machine.1 (lockAcquireState 0) (some 1) (1 / 60) ?_).2.2.1,
          (lockOn_state_machine.2 0 90).mpr (by norm_num),
          fun h => by have h2 := (lockOn_state_machine.2 0 89).mp h; omega⟩
  intro hh
  rw [lockAcquireState] at hh
  simp at hh

/-! ## Guided missile (`Missile`, `src/weapons/Missile.js`)

Aircraft referenced by a missile (target, owner) are identified by ids;
the per-tick fields of the referenced aircraft are read through an
observation function `obs : ℕ → TargetObs`, mirroring the reference
semantics of the source (the referenced object is mutated elsewhere
between ticks).  The `Math.random()` samples consumed by the flare loop
and the jink check are explicit inputs. -/

/-- Per-tick observation of an aircraft referenced by a missile. -/
structure TargetObs where
  pos : Vec3
  vel : Vec3
  prevVel : Vec3
  gForce : ℝ
  alive : Bool

/-- A countermeasure flare as seen by the missile update. -/
structure Flare where
  fid : ℕ
  alive : Bool
  pos : Vec3

/-- Missile state (cosmetic mesh/smoke-trail fields omitted). -/
structure MissileState where
  pos : Vec3
  vel : Vec3
  target : Option ℕ
  owner : Option ℕ
  alive : Bool
  age : ℝ
  armed : Bool
  distanceTraveled : ℝ
  checkedFlares : Finset ℕ
  prevTargetAccelDir : Option Vec3
  jinkCooldown : ℝ
  detonationPosition : Option Vec3

/-- The `Missile` constructor: position copied, velocity normalized to
`MISSILE.SPEED`, empty checked-flare set. -/
def Missile.init (pos vel : Vec3) (target owner : Option ℕ) : MissileState :=
  { pos := pos
    vel := smul3 WEAPONS.MISSILE.SPEED (normalize3 vel)
    target := target
    owner := owner
    alive := true
    age := 0
    armed := false
    distanceTraveled := 0
    checkedFlares := ∅
    prevTargetAccelDir := none
    jinkCooldown := 0
    detonationPosition := none }

/-- The flare loop of `Missile.update`: skip dead flares, flares already in
the checked set, and friendly flares; a flare roughly between missile and
target is added to the checked set and rolled once against
`FLARES.DECOY_CHANCE`; a successful roll drops the lock and stops the loop.
Returns (defeating flare id if any, new checked set, ids rolled this tick). -/
def flareLoop (mpos tpos : Vec3) (ownerPos : Option Vec3) (rand : ℕ → ℝ) :
    List Flare → Finset ℕ → Option ℕ × Finset ℕ × List ℕ
  | [], checked => (none, checked, [])
  | f :: rest, checked =>
    if f.alive = false then flareLoop mpos tpos ownerPos rand rest checked
    else if f.fid ∈ checked then flareLoop mpos tpos ownerPos rand rest checked
    else if ownerPos.elim False (fun op => dist3 f.pos op < dist3 f.pos tpos) then
      flareLoop mpos tpos ownerPos rand rest checked
    else if norm3 (f.pos - mpos) < norm3 (tpos - mpos) * 1.5 then
      let checked2 := insert f.fid checked
      if rand f.fid < WEAPONS.FLARES.DECOY_CHANCE then (some f.fid, checked2, [f.fid])
      else
        let r := flareLoop mpos tpos ownerPos rand rest checked2
        (r.1, r.2.1, f.fid :: r.2.2)
    else flareLoop mpos tpos ownerPos rand rest checked

/-- The flare-decoy block of `Missile.update` (guarded by a non-empty flare
list and a present target reference).  Returns the new missile state, the
defeating flare id if the lock was dropped, and the flare ids rolled. -/
def Missile.flarePhase (m : MissileState) (flares : List Flare) (obs : ℕ → TargetObs)
    (frand : ℕ → ℝ) : MissileState × Option ℕ × List ℕ :=
  match m.target with
  | some tid =>
    if 0 < flares.length then
      let r := flareLoop m.pos (obs tid).pos (m.owner.map fun o => (obs o).pos) frand
                 flares m.checkedFlares
      ({ m with
          checkedFlares := r.2.1,
          target := if r.1.isSome then none else m.target }, r.1, r.2.2)
    else (m, none, [])
  | none => (m, none, [])

/-- The jink-evasion block of `Missile.update`: tick the cooldown down; if a
live target under high G reverses its acceleration direction sharply, roll
an evasion chance scaled by the reversal strength — success drops the lock
and sets a 1 s cooldown, failure a 0.5 s cooldown. -/
def Missile.jinkPhase (m : MissileState) (dt : ℝ) (obs : ℕ → TargetObs)
    (jrand : ℝ) : MissileState :=
  let m := { m with jinkCooldown := max 0 (m.jinkCooldown - dt) }
  match m.target with
  | some tid =>
    let t := obs tid
    if t.alive = true ∧ m.jinkCooldown ≤ 0 then
      let accel := t.vel - t.prevVel
      if 1 < norm3 accel then
        let accelDir := normalize3 accel
        let m2 :=
          match m.prevTargetAccelDir with
          | some prevDir =>
            let d := dot3 accelDir prevDir
            if d < -0.3 ∧ WEAPONS.MISSILE.JINK_G_MIN ≤ |t.gForce| then
              if jrand < WEAPONS.MISSILE.JINK_EVADE_CHANCE * |d| then
                { m with target := none, jinkCooldown := 1 }
              else { m with jinkCooldown := 0.5 }
            else m
          | none => m
        { m2 with prevTargetAccelDir := some accelDir }
      else m
    else m
  | none => m

/-- `Missile.detonate`: damage the live target with linear falloff across
the fuse radius, record the detonation position and destroy the missile.
Returns the damage event (target id, amount) if damage was applied. -/
def Missile.detonate (m : MissileState) (obs : ℕ → TargetObs) :
    MissileState × Option (ℕ × ℝ) :=
  if m.alive = false then (m, none)
  else
    let dmg : Option (ℕ × ℝ) :=
      match m.target with
      | some tid =>
        let t := obs tid
        if t.alive = true then
          let dist := dist3 m.pos t.pos
          if dist < WEAPONS.MISSILE.PROXIMITY_FUSE then
            some (tid, WEAPONS.MISSILE.DAMAGE * (1 - dist / WEAPONS.MISSILE.PROXIMITY_FUSE))
          else none
        else none
      | none => none
    ({ m with detonationPosition := some m.pos, alive := false }, dmg)

/-- The proportional-navigation velocity update of `Missile.update`: rotate
the current heading toward the line of sight, capped by the maximum turn
rate, then renormalize to the design speed. -/
def Missile.pnVelocity (m : MissileState) (tpos : Vec3) (dt : ℝ) : Vec3 :=
  let toTarget := tpos - m.pos
  let los := normalize3 toTarget
  let currentDir := normalize3 m.vel
  let cross := cross3 currentDir los
  let dotDir := dot3 currentDir los
  let turnAngle := atan2 (norm3 cross) dotDir
  let maxTurn := WEAPONS.MISSILE.MAX_TURN_RATE * (Real.pi / 180) * dt
  let actualTurn := min (turnAngle * WEAPONS.MISSILE.GUIDANCE_GAIN) maxTurn
  let vel1 :=
    if 0.001 < norm3 cross then
      applyQuaternion m.vel (quatFromAxisAngle (normalize3 cross) actualTurn)
    else m.vel
  smul3 WEAPONS.MISSILE.SPEED (normalize3 vel1)

/-- The guidance block of `Missile.update`: proximity fuse when armed and
inside the fuse radius, otherwise proportional navigation; without a live
target the missile coasts on its current velocity.  Also advances position.
Returns the damage event of a detonation, if any. -/
def Missile.guidance (m : MissileState) (dt : ℝ) (obs : ℕ → TargetObs) :
    MissileState × Option (ℕ × ℝ) :=
  match m.target with
  | some tid =>
    let t := obs tid
    if t.alive = true then
      let toTarget := t.pos - m.pos
      let distance := norm3 toTarget
      if m.armed = true ∧ distance < WEAPONS.MISSILE.PROXIMITY_FUSE then
        Missile.detonate m obs
      else
        let vel2 := Missile.pnVelocity m t.pos dt
        ({ m with vel := vel2, pos := m.pos + smul3 dt vel2 }, none)
    else ({ m with pos := m.pos + smul3 dt m.vel }, none)
  | none => ({ m with pos := m.pos + smul3 dt m.vel }, none)

/-- The accumulated-travel / arming step of `Missile.update`. -/
def Missile.armStep (m : MissileState) (dt : ℝ) : MissileState :=
  let m2 := { m with distanceTraveled := m.distanceTraveled + norm3 m.vel * dt }
  if WEAPONS.MISSILE.ARM_DISTANCE < m2.distanceTraveled then { m2 with armed := true }
  else m2

/-- Ghost observations of one `Missile.update` tick: which flares were
rolled, which flare (if any) defeated the lock, and the damage event of a
detonation. -/
structure MissileTickInfo where
  rolled : List ℕ
  defeated : Option ℕ
  detonation : Option (ℕ × ℝ)

def noTickInfo : MissileTickInfo := { rolled := [], defeated := none, detonation := none }

/-- `Missile.update(dt, flares)`: age out at lifetime, accumulate travel
distance and arm, run the flare-decoy and jink-evasion checks, then guide
(proximity fuse / proportional navigation) and advance position. -/
def Missile.update (m : MissileState) (dt : ℝ) (flares : List Flare)
    (obs : ℕ → TargetObs) (frand : ℕ → ℝ) (jrand : ℝ) :
    MissileState × MissileTickInfo :=
  if m.alive = false then (m, noTickInfo)
  else
    let m1 := { m with age := m.age + dt }
    if WEAPONS.MISSILE.LIFE_TIME < m1.age then ({ m1 with alive := false }, noTickInfo)
    else
      let m3 := Missile.armStep m1 dt
      let fp := Missile.flarePhase m3 flares obs frand
      let m4 := Missile.jinkPhase fp.1 dt obs jrand
      let g := Missile.guidance m4 dt obs
      (g.1, { rolled := fp.2.2, defeated := fp.2.1, detonation := g.2 })

/-! ## C2: each flare is rolled at most once per missile -/

theorem flareLoop_spec (mpos tpos : Vec3) (ownerPos : Option Vec3) (rand : ℕ → ℝ)
    (fl : List Flare) :
    ∀ (checked : Finset ℕ) (f : ℕ),
      checked ⊆ (flareLoop mpos tpos ownerPos rand fl checked).2.1 ∧
      (f ∈ checked → f ∉ (flareLoop mpos tpos ownerPos rand fl checked).2.2) ∧
      (flareLoop mpos tpos ownerPos rand fl checked).2.2.count f ≤ 1 ∧
      (f ∈ (flareLoop mpos tpos ownerPos rand fl checked).2.2 →
        f ∈ (flareLoop mpos tpos ownerPos rand fl checked).2.1) ∧
      ((flareLoop mpos tpos ownerPos rand fl checked).1 = some f →
        f ∈ (flareLoop mpos tpos ownerPos rand fl checked).2.2) := by
  induction fl with
  | nil =>
    intro checked f
    simp [flareLoop]
  | cons g rest IH =>
    intro checked f
    unfold flareLoop
    dsimp only
    split_ifs with h1 h2 h3 h4 h5
    · exact IH checked f
    · exact IH checked f
    · exact IH checked f
    · -- rolled, decoy success: loop stops with this single roll
      refine ⟨Finset.subset_insert _ _, ?_, ?_, ?_, ?_⟩
      · intro hf
        simp only [List.mem_singleton]
        rintro rfl
        exact h2 hf
      · simpa using List.count_le_length f [g.fid]
      · intro hf
        simp only [List.mem_singleton] at hf
        subst hf
        exact Finset.mem_insert_self _ _
      · intro he
        injection he with he
        subst he
        exact List.mem_singleton_self _
    · -- rolled, decoy failed: continue with the flare now checked
      obtain ⟨iha, ihb, ihc, ihd, ihe⟩ := IH (insert g.fid checked) f
      refine ⟨(Finset.subset_insert _ _).trans iha, ?_, ?_, ?_, ?_⟩
      · intro hf
        simp only [List.mem_cons]
        rintro (rfl | hmem)
        · exact h2 hf
        · exact ihb (Finset.mem_insert_of_mem hf) hmem
      · by_cases hfg : f = g.fid
        · subst hfg
          have hnot : g.fid ∉ (flareLoop mpos tpos ownerPos rand rest (insert g.fid checked)).2.2 :=
            ihb (Finset.mem_insert_self _ _)
          simp [List.count_cons, List.count_eq_zero.mpr hnot]
        · simpa [List.count_cons, beq_iff_eq, Ne.symm hfg] using ihc
      · intro hf
        rcases List.mem_cons.mp hf with rfl | hmem
        · exact iha (Finset.mem_insert_self _ _)
        · exact ihd hmem
      · intro he
        exact List.mem_cons_of_mem _ (ihe he)
    · exact IH checked f

theorem Missile.armStep_checkedFlares (m : MissileState) (dt : ℝ) :
    (Missile.armStep m dt).checkedFlares = m.checkedFlares := by
  unfold Missile.armStep
  dsimp only
  split_ifs <;> rfl

theorem Missile.armStep_target (m : MissileState) (dt : ℝ) :
    (Missile.armStep m dt).target = m.target := by
  unfold Missile.armStep
  dsimp only
  split_ifs <;> rfl

theorem Missile.jinkPhase_checkedFlares (m : MissileState) (dt : ℝ)
    (obs : ℕ → TargetObs) (jrand : ℝ) :
    (Missile.jinkPhase m dt obs jrand).checkedFlares = m.checkedFlares := by
  obtain ⟨mp, mv, mtg, mow, mal, mag, mar, mdt, mcf, mpa, mjc, mdp⟩ := m
  cases mtg <;> cases mpa <;> unfold Missile.jinkPhase <;> dsimp only <;>
    split_ifs <;> rfl

theorem Missile.jinkPhase_vel (m : MissileState) (dt : ℝ)
    (obs : ℕ → TargetObs) (jrand : ℝ) :
    (Missile.jinkPhase m dt obs jrand).vel = m.vel := by
  obtain ⟨mp, mv, mtg, mow, mal, mag, mar, mdt, mcf, mpa, mjc, mdp⟩ := m
  cases mtg <;> cases mpa <;> unfold Missile.jinkPhase <;> dsimp only <;>
    split_ifs <;> rfl

theorem Missile.jinkPhase_pos (m : MissileState) (dt : ℝ)
    (obs : ℕ → TargetObs) (jrand : ℝ) :
    (Missile.jinkPhase m dt obs jrand).pos = m.pos := by
  obtain ⟨mp, mv, mtg, mow, mal, mag, mar, mdt, mcf, mpa, mjc, mdp⟩ := m
  cases mtg <;> cases mpa <;> unfold Missile.jinkPhase <;> dsimp only <;>
    split_ifs <;> rfl

theorem Missile.jinkPhase_armed (m : MissileState) (dt : ℝ)
    (obs : ℕ → TargetObs) (jrand : ℝ) :
    (Missile.jinkPhase m dt obs jrand).armed = m.armed := by
  obtain ⟨mp, mv, mtg, mow, mal, mag, mar, mdt, mcf, mpa, mjc, mdp⟩ := m
  cases mtg <;> cases mpa <;> unfold Missile.jinkPhase <;> dsimp only <;>
    split_ifs <;> rfl

theorem Missile.flarePhase_checkedFlares_sub (m : MissileState) (fl : List Flare)
    (obs : ℕ → TargetObs) (frand : ℕ → ℝ) (f : ℕ) :
    m.checkedFlares ⊆ (Missile.flarePhase m fl obs frand).1.checkedFlares ∧
    (f ∈ m.checkedFlares → f ∉ (Missile.flarePhase m fl obs frand).2.2) ∧
    (Missile.flarePhase m fl obs frand).2.2.count f ≤ 1 ∧
    (f ∈ (Missile.flarePhase m fl obs frand).2.2 →
      f ∈ (Missile.flarePhase m fl obs frand).1.checkedFlares) ∧
    ((Missile.flarePhase m fl obs frand).2.1 = some f →
      f ∈ (Missile.flarePhase m fl obs frand).2.2) := by
  obtain ⟨mp, mv, mtg, mow, mal, mag, mar, mdt, mcf, mpa, mjc, mdp⟩ := m
  cases mtg with
  | none =>
    unfold Missile.flarePhase
    simp
  | some tid =>
    unfold Missile.flarePhase
    dsimp only
    split_ifs with hlen hsome
    · exact flareLoop_spec _ _ _ _ fl mcf f
    · exact flareLoop_spec _ _ _ _ fl mcf f
    · simp

theorem Missile.flarePhase_vel (m : MissileState) (fl : List Flare)
    (obs : ℕ → TargetObs) (frand : ℕ → ℝ) :
    (Missile.flarePhase m fl obs frand).1.vel = m.vel := by
  obtain ⟨mp, mv, mtg, mow, mal, mag, mar, mdt, mcf, mpa, mjc, mdp⟩ := m
  cases mtg <;> unfold Missile.flarePhase <;> dsimp only <;> split_ifs <;> rfl

theorem Missile.flarePhase_pos (m : MissileState) (fl : List Flare)
    (obs : ℕ → TargetObs) (frand : ℕ → ℝ) :
    (Missile.flarePhase m fl obs frand).1.pos = m.pos := by
  obtain ⟨mp, mv, mtg, mow, mal, mag, mar, mdt, mcf, mpa, mjc, mdp⟩ := m
  cases mtg <;> unfold Missile.flarePhase <;> dsimp only <;> split_ifs <;> rfl

theorem Missile.flarePhase_armed (m : MissileState) (fl : List Flare)
    (obs : ℕ → TargetObs) (frand : ℕ → ℝ) :
    (Missile.flarePhase m fl obs frand).1.armed = m.armed := by
  obtain ⟨mp, mv, mtg, mow, mal, mag, mar, mdt, mcf, mpa, mjc, mdp⟩ := m
  cases mtg <;> unfold Missile.flarePhase <;> dsimp only <;> split_ifs <;> rfl

theorem Missile.detonate_checkedFlares (m : MissileState) (obs : ℕ → TargetObs) :
    (Missile.detonate m obs).1.checkedFlares = m.checkedFlares := by
  unfold Missile.detonate
  split_ifs <;> rfl

theorem Missile.detonate_vel (m : MissileState) (obs : ℕ → TargetObs) :
    (Missile.detonate m obs).1.vel = m.vel := by
  unfold Missile.detonate
  split_ifs <;> rfl

theorem Missile.guidance_checkedFlares (m : MissileState) (dt : ℝ) (obs : ℕ → TargetObs) :
    (Missile.guidance m dt obs).1.checkedFlares = m.checkedFlares := by
  obtain ⟨mp, mv, mtg, mow, mal, mag, mar, mdt, mcf, mpa, mjc, mdp⟩ := m
  cases mtg with
  | none => rfl
  | some tid =>
    unfold Missile.guidance
    dsimp only
    split_ifs <;> first
      | rfl
      | exact Missile.detonate_checkedFlares _ obs

theorem Missile.update_flare_spec (m : MissileState) (dt : ℝ) (flares : List Flare)
    (obs : ℕ → TargetObs) (frand : ℕ → ℝ) (jrand : ℝ) (f : ℕ) :
    m.checkedFlares ⊆ (Missile.update m dt flares obs frand jrand).1.checkedFlares ∧
    (f ∈ m.checkedFlares → f ∉ (Missile.update m dt flares obs frand jrand).2.rolled) ∧
    (Missile.update m dt flares obs frand jrand).2.rolled.count f ≤ 1 ∧
    (f ∈ (Missile.update m dt flares obs frand jrand).2.rolled →
      f ∈ (Missile.update m dt flares obs frand jrand).1.checkedFlares) ∧
    ((Missile.update m dt flares obs frand jrand).2.defeated = some f →
      f ∈ (Missile.update m dt flares obs frand jrand).2.rolled) := by
  unfold Missile.update
  dsimp only
  split_ifs with halive hexp
  · simp [noTickInfo]
  · simp [noTickInfo]
  · have hchk :
        (Missile.guidance
          (Missile.jinkPhase
            (Missile.flarePhase (Missile.armStep { m with age := m.age + dt } dt)
              flares obs frand).1 dt obs jrand) dt obs).1.checkedFlares =
        (Missile.flarePhase (Missile.armStep { m with age := m.age + dt } dt)
            flares obs frand).1.checkedFlares := by
      rw [Missile.guidance_checkedFlares, Missile.jinkPhase_checkedFlares]
    rw [hchk]
    have harm : (Missile.armStep { m with age := m.age + dt } dt).checkedFlares
        = m.checkedFlares := Missile.armStep_checkedFlares _ _
    have hspec := Missile.flarePhase_checkedFlares_sub
      (Missile.armStep { m with age := m.age + dt } dt) flares obs frand f
    rw [harm] at hspec
    exact hspec

/-- One tick of environment input consumed by `Missile.update`. -/
structure MissileTickIn where
  dt : ℝ
  flares : List Flare
  obs : ℕ → TargetObs
  frand : ℕ → ℝ
  jrand : ℝ

/-- Repeated `Missile.update` ticks, collecting the per-tick ghost info. -/
def Missile.run : MissileState → List MissileTickIn → MissileState × List MissileTickInfo
  | m, [] => (m, [])
  | m, i :: rest =>
    let u := Missile.update m i.dt i.flares i.obs i.frand i.jrand
    let r := Missile.run u.1 rest
    (r.1, u.2 :: r.2)

/-- Total number of decoy rolls performed against flare `f` over a run. -/
def rolledCount (f : ℕ) (infos : List MissileTickInfo) : ℕ :=
  (infos.map fun g => g.rolled.count f).sum

/-- Number of ticks on which flare `f` defeated the missile lock over a run. -/
def defeatedCount (f : ℕ) (infos : List MissileTickInfo) : ℕ :=
  infos.countP fun g => decide (g.defeated = some f)

theorem Missile.run_rolled_bound (ticks : List MissileTickIn) :
    ∀ (m : MissileState) (f : ℕ),
      rolledCount f (Missile.run m ticks).2 ≤ if f ∈ m.checkedFlares then 0 else 1 := by
  induction ticks with
  | nil =>
    intro m f
    simp [Missile.run, rolledCount]
  | cons i rest IH =>
    intro m f
    obtain ⟨hsub, hskip, hcount, hmem, _⟩ :=
      Missile.update_flare_spec m i.dt i.flares i.obs i.frand i.jrand f
    unfold Missile.run
    dsimp only
    unfold rolledCount
    rw [List.map_cons, List.sum_cons]
    have IH2 := IH (Missile.update m i.dt i.flares i.obs i.frand i.jrand).1 f
    unfold rolledCount at IH2
    by_cases hf : f ∈ m.checkedFlares
    · rw [if_pos hf]
      rw [List.count_eq_zero.mpr (hskip hf)]
      rw [if_pos (hsub hf)] at IH2
      omega
    · rw [if_neg hf]
      by_cases hroll : f ∈ (Missile.update m i.dt i.flares i.obs i.frand i.jrand).2.rolled
      · rw [if_pos (hmem hroll)] at IH2
        omega
      · rw [List.count_eq_zero.mpr hroll]
        have hle : (if f ∈ (Missile.update m i.dt i.flares i.obs i.frand i.jrand).1.checkedFlares
            then 0 else 1) ≤ 1 := by split <;> omega
        omega

theorem Missile.run_defeated_le (ticks : List MissileTickIn) :
    ∀ (m : MissileState) (f : ℕ),
      defeatedCount f (Missile.run m ticks).2 ≤ rolledCount f (Missile.run m ticks).2 := by
  induction ticks with
  | nil =>
    intro m f
    simp [Missile.run, rolledCount, defeatedCount]
  | cons i rest IH =>
    intro m f
    obtain ⟨_, _, _, _, hdef⟩ :=
      Missile.update_flare_spec m i.dt i.flares i.obs i.frand i.jrand f
    unfold Missile.run
    dsimp only
    unfold rolledCount defeatedCount
    rw [List.map_cons, List.sum_cons, List.countP_cons]
    have IH2 := IH (Missile.update m i.dt i.flares i.obs i.frand i.jrand).1 f
    unfold rolledCount defeatedCount at IH2
    have hhead : (if decide ((Missile.update m i.dt i.flares i.obs i.frand i.jrand).2.defeated
        = some f) = true then 1 else 0) ≤
        (Missile.update m i.dt i.flares i.obs i.frand i.jrand).2.rolled.count f := by
      split
      · next hd =>
        have := hdef (of_decide_eq_true hd)
        exact List.count_pos_iff_mem.mpr this
      · omega
    omega

/-- C2: Countermeasure bound.  Starting from a freshly constructed missile
(empty checked-flare set), over any sequence of update ticks — arbitrary
tick lengths, flare lists, target/owner observations and random samples —
each flare id is rolled against the decoy probability at most once in
total, and the number of ticks on which that flare defeats the lock is
bounded by its number of rolls (so a flare that has been evaluated once is
skipped on every later tick and can never defeat the missile again). -/
theorem flare_rolled_at_most_once (pos vel : Vec3) (target owner : Option ℕ)
    (ticks : List MissileTickIn) (f : ℕ) :
    rolledCount f (Missile.run (Missile.init pos vel target owner) ticks).2 ≤ 1 ∧
    defeatedCount f (Missile.run (Missile.init pos vel target owner) ticks).2 ≤
      rolledCount f (Missile.run (Missile.init pos vel target owner) ticks).2 := by
  constructor
  · have h := Missile.run_rolled_bound ticks (Missile.init pos vel target owner) f
    have hempty : f ∉ (Missile.init pos vel target owner).checkedFlares := by
      unfold Missile.init
      simp
    rw [if_neg hempty] at h
    exact h
  · exact Missile.run_defeated_le ticks (Missile.init pos vel target owner) f

/-! ## C3: proximity fuse and damage falloff -/

theorem Vec3.sub_def (a b : Vec3) : a - b = ⟨a.x - b.x, a.y - b.y, a.z - b.z⟩ := rfl

theorem Vec3.add_def (a b : Vec3) : a + b = ⟨a.x + b.x, a.y + b.y, a.z + b.z⟩ := rfl

theorem dist3_comm (a b : Vec3) : dist3 a b = dist3 b a := by
  unfold dist3 norm3
  congr 1
  rw [Vec3.sub_def, Vec3.sub_def]
  unfold normSq3
  ring

theorem Missile.armStep_pos (m : MissileState) (dt : ℝ) :
    (Missile.armStep m dt).pos = m.pos := by
  unfold Missile.armStep
  dsimp only
  split_ifs <;> rfl

theorem Missile.armStep_vel (m : MissileState) (dt : ℝ) :
    (Missile.armStep m dt).vel = m.vel := by
  unfold Missile.armStep
  dsimp only
  split_ifs <;> rfl

theorem Missile.armStep_alive (m : MissileState) (dt : ℝ) :
    (Missile.armStep m dt).alive = m.alive := by
  unfold Missile.armStep
  dsimp only
  split_ifs <;> rfl

theorem Missile.flarePhase_alive (m : MissileState) (fl : List Flare)
    (obs : ℕ → TargetObs) (frand : ℕ → ℝ) :
    (Missile.flarePhase m fl obs frand).1.alive = m.alive := by
  obtain ⟨mp, mv, mtg, mow, mal, mag, mar, mdt, mcf, mpa, mjc, mdp⟩ := m
  cases mtg <;> unfold Missile.flarePhase <;> dsimp only <;> split_ifs <;> rfl

theorem Missile.jinkPhase_alive (m : MissileState) (dt : ℝ)
    (obs : ℕ → TargetObs) (jrand : ℝ) :
    (Missile.jinkPhase m dt obs jrand).alive = m.alive := by
  obtain ⟨mp, mv, mtg, mow, mal, mag, mar, mdt, mcf, mpa, mjc, mdp⟩ := m
  cases mtg <;> cases mpa <;> unfold Missile.jinkPhase <;> dsimp only <;>
    split_ifs <;> rfl

theorem Missile.guidance_fuse (m : MissileState) (dt : ℝ) (obs : ℕ → TargetObs)
    (tid : ℕ) (halive : m.alive = true) (htg : m.target = some tid)
    (harmed : m.armed = true) (htal : (obs tid).alive = true)
    (hdist : dist3 m.pos (obs tid).pos < WEAPONS.MISSILE.PROXIMITY_FUSE) :
    (Missile.guidance m dt obs).1.alive = false ∧
    (Missile.guidance m dt obs).2 =
      some (tid, WEAPONS.MISSILE.DAMAGE *
        (1 - dist3 m.pos (obs tid).pos / WEAPONS.MISSILE.PROXIMITY_FUSE)) := by
  have hdist2 : norm3 ((obs tid).pos - m.pos) < WEAPONS.MISSILE.PROXIMITY_FUSE := by
    have := dist3_comm m.pos (obs tid).pos
    unfold dist3 at this hdist
    rw [← this]
    exact hdist
  unfold Missile.guidance
  rw [htg]
  dsimp only
  rw [if_pos htal, if_pos ⟨harmed, hdist2⟩]
  unfold Missile.detonate
  rw [if_neg (by rw [halive]; simp), htg]
  dsimp only
  rw [if_pos htal, if_pos hdist]
  exact ⟨rfl, rfl⟩

theorem Missile.guidance_detonation_none (m : MissileState) (dt : ℝ)
    (obs : ℕ → TargetObs) (h : m.armed = false) :
    (Missile.guidance m dt obs).2 = none := by
  obtain ⟨mp, mv, mtg, mow, mal, mag, mar, mdt, mcf, mpa, mjc, mdp⟩ := m
  subst h
  cases mtg with
  | none => rfl
  | some tid =>
    unfold Missile.guidance
    dsimp only
    split_ifs with h1 h2
    · exact absurd h2.1 (by simp)
    · rfl
    · rfl

/-- C3: Proximity fuse and damage falloff.  On an update tick of a live,
non-expired missile, if after the arming and countermeasure phases the
missile is armed and still tracks target `tid`, the target is alive and
lies within `PROXIMITY_FUSE` of the missile, then the missile detonates on
that tick (it is destroyed) and applies damage
`MISSILE.DAMAGE * (1 - distance / PROXIMITY_FUSE)` to the target; and a
missile that is not armed after this tick's arming check never produces a
proximity detonation on this tick. -/
theorem proximity_fuse_detonation (m : MissileState) (dt : ℝ) (flares : List Flare)
    (obs : ℕ → TargetObs) (frand : ℕ → ℝ) (jrand : ℝ) (tid : ℕ) :
    (m.alive = true →
     m.age + dt ≤ WEAPONS.MISSILE.LIFE_TIME →
     (Missile.jinkPhase
        (Missile.flarePhase (Missile.armStep { m with age := m.age + dt } dt)
          flares obs frand).1 dt obs jrand).target = some tid →
     (Missile.armStep { m with age := m.age + dt } dt).armed = true →
     (obs tid).alive = true →
     dist3 m.pos (obs tid).pos < WEAPONS.MISSILE.PROXIMITY_FUSE →
     (Missile.update m dt flares obs frand jrand).1.alive = false ∧
     (Missile.update m dt flares obs frand jrand).2.detonation =
       some (tid, WEAPONS.MISSILE.DAMAGE *
         (1 - dist3 m.pos (obs tid).pos / WEAPONS.MISSILE.PROXIMITY_FUSE))) ∧
    ((Missile.armStep { m with age := m.age + dt } dt).armed = false →
     (Missile.update m dt flares obs frand jrand).2.detonation = none) := by
  constructor
  · intro halive hage htg harmed htal hdist
    set m1 : MissileState := { m with age := m.age + dt } with hm1
    set m4 : MissileState :=
      Missile.jinkPhase (Missile.flarePhase (Missile.armStep m1 dt) flares obs frand).1
        dt obs jrand with hm4
    have hpos : m4.pos = m.pos := by
      rw [hm4, Missile.jinkPhase_pos, Missile.flarePhase_pos, Missile.armStep_pos]
    have halive4 : m4.alive = true := by
      rw [hm4, Missile.jinkPhase_alive, Missile.flarePhase_alive, Missile.armStep_alive]
      exact halive
    have harmed4 : m4.armed = true := by
      rw [hm4, Missile.jinkPhase_armed, Missile.flarePhase_armed]
      exact harmed
    have hfuse := Missile.guidance_fuse m4 dt obs tid halive4 htg harmed4 htal
      (by rw [hpos]; exact hdist)
    rw [hpos] at hfuse
    unfold Missile.update
    dsimp only
    rw [if_neg (by rw [halive]; simp), if_neg (not_lt.mpr hage)]
    dsimp only
    exact hfuse
  · intro harmed
    unfold Missile.update
    dsimp only
    split_ifs with h1 h2
    · rfl
    · rfl
    · dsimp only
      apply Missile.guidance_detonation_none
      rw [Missile.jinkPhase_armed, Missile.flarePhase_armed]
      exact harmed

/-- A concrete target observation: stationary, alive, 10 units in front of
the origin. -/
def demoObs : ℕ → TargetObs := fun _ =>
  { pos := v3 0 0 (-10), vel := v3 0 0 0, prevVel := v3 0 0 0, gForce := 0, alive := true }

/-- A concrete armed missile at the origin tracking target 0. -/
def demoMissile : MissileState :=
  { pos := v3 0 0 0, vel := v3 0 0 (-700), target := some 0, owner := none,
    alive := true, age := 0, armed := false, distanceTraveled := 100,
    checkedFlares := ∅, prevTargetAccelDir := none, jinkCooldown := 5,
    detonationPosition := none }

theorem demo_dist : dist3 demoMissile.pos (demoObs 0).pos = 10 := by
  unfold dist3 demoMissile demoObs
  dsimp only
  rw [Vec3.sub_def]
  unfold norm3 normSq3 v3
  norm_num
  rw [show (100 : ℝ) = 10 ^ 2 by norm_num, Real.sqrt_sq (by norm_num : (0 : ℝ) ≤ 10)]

/-- Witness for C3: the concrete armed missile 10 units from its live
target detonates on the tick and deals `100 * (1 - 10/15)` damage. -/
theorem proximity_fuse_detonation_witness :
    (Missile.update demoMissile 0 [] demoObs (fun _ => 1) 1).1.alive = false ∧
    (Missile.update demoMissile 0 [] demoObs (fun _ => 1) 1).2.detonation =
      some (0, WEAPONS.MISSILE.DAMAGE *
        (1 - dist3 demoMissile.pos (demoObs 0).pos / WEAPONS.MISSILE.PROXIMITY_FUSE)) ∧
    dist3 demoMissile.pos (demoObs 0).pos = 10 := by
  have happ := (proximity_fuse_detonation demoMissile 0 [] demoObs (fun _ => 1) 1 0).1
    rfl
    (by norm_num [demoMissile, WEAPONS.MISSILE.LIFE_TIME])
    (by norm_num [Missile.jinkPhase, Missile.flarePhase, Missile.armStep, demoMissile,
          demoObs, WEAPONS.MISSILE.ARM_DISTANCE])
    (by norm_num [Missile.armStep, demoMissile, WEAPONS.MISSILE.ARM_DISTANCE])
    rfl
    (by rw [demo_dist]; norm_num [WEAPONS.MISSILE.PROXIMITY_FUSE])
  exact ⟨happ.1, happ.2, demo_dist⟩

/-! ## C4: missile speed invariant -/

theorem Missile.pnVelocity_norm (m : MissileState) (tpos : Vec3) (dt : ℝ)
    (h : norm3 m.vel = WEAPONS.MISSILE.SPEED) :
    norm3 (Missile.pnVelocity m tpos dt) = WEAPONS.MISSILE.SPEED := by
  have hv : m.vel ≠ v3 0 0 0 := by
    intro h0
    rw [h0, (norm3_eq_zero_iff _).mpr rfl] at h
    unfold WEAPONS.MISSILE.SPEED at h
    norm_num at h
  unfold Missile.pnVelocity
  dsimp only
  split_ifs with hc
  · set cr := cross3 (normalize3 m.vel) (normalize3 (tpos - m.pos)) with hcr
    have hcne : cr ≠ v3 0 0 0 := by
      intro h0
      rw [h0, (norm3_eq_zero_iff _).mpr rfl] at hc
      norm_num at hc
    have hq : quatNormSq (quatFromAxisAngle (normalize3 cr)
        (min (atan2 (norm3 cr) (dot3 (normalize3 m.vel) (normalize3 (tpos - m.pos))) *
          WEAPONS.MISSILE.GUIDANCE_GAIN)
          (WEAPONS.MISSILE.MAX_TURN_RATE * (Real.pi / 180) * dt))) = 1 :=
      quatNormSq_fromAxisAngle _ _ (normSq3_normalize3 cr hcne)
    have hne := applyQuaternion_ne_zero m.vel _ hq hv
    exact norm3_renorm _ _ hne (by unfold WEAPONS.MISSILE.SPEED; norm_num)
  · exact norm3_renorm _ _ hv (by unfold WEAPONS.MISSILE.SPEED; norm_num)

theorem Missile.guidance_vel_norm (m : MissileState) (dt : ℝ) (obs : ℕ → TargetObs)
    (h : norm3 m.vel = WEAPONS.MISSILE.SPEED) :
    norm3 (Missile.guidance m dt obs).1.vel = WEAPONS.MISSILE.SPEED := by
  unfold Missile.guidance
  cases htg : m.target with
  | none => exact h
  | some tid =>
    dsimp only
    split_ifs with h1 h2
    · rw [Missile.detonate_vel]
      exact h
    · exact Missile.pnVelocity_norm m (obs tid).pos dt h
    · exact h

theorem Missile.update_vel_norm (m : MissileState) (dt : ℝ) (flares : List Flare)
    (obs : ℕ → TargetObs) (frand : ℕ → ℝ) (jrand : ℝ)
    (h : norm3 m.vel = WEAPONS.MISSILE.SPEED) :
    norm3 (Missile.update m dt flares obs frand jrand).1.vel = WEAPONS.MISSILE.SPEED := by
  unfold Missile.update
  dsimp only
  split_ifs with h1 h2
  · exact h
  · exact h
  · apply Missile.guidance_vel_norm
    rw [Missile.jinkPhase_vel, Missile.flarePhase_vel, Missile.armStep_vel]
    exact h

/-- Reachability of missile states from a given start state under
arbitrary `Missile.update` ticks. -/
inductive Missile.Reachable (m0 : MissileState) : MissileState → Prop where
  | init : Missile.Reachable m0 m0
  | step (m : MissileState) (dt : ℝ) (flares : List Flare) (obs : ℕ → TargetObs)
      (frand : ℕ → ℝ) (jrand : ℝ) :
      Missile.Reachable m0 m →
      Missile.Reachable m0 (Missile.update m dt flares obs frand jrand).1

/-- The missile has no live target this tick: either the target reference
is absent, or the referenced aircraft is not alive. -/
def Missile.noLiveTarget (m : MissileState) (obs : ℕ → TargetObs) : Prop :=
  match m.target with
  | none => True
  | some tid => (obs tid).alive = false

theorem Missile.flarePhase_target_cases (m : MissileState) (fl : List Flare)
    (obs : ℕ → TargetObs) (frand : ℕ → ℝ) :
    (Missile.flarePhase m fl obs frand).1.target = m.target ∨
    (Missile.flarePhase m fl obs frand).1.target = none := by
  obtain ⟨mp, mv, mtg, mow, mal, mag, mar, mdt, mcf, mpa, mjc, mdp⟩ := m
  cases mtg with
  | none => left; rfl
  | some tid =>
    unfold Missile.flarePhase
    dsimp only
    split_ifs with h1 h2
    · right; rfl
    · left; rfl
    · left; rfl

theorem Missile.jinkPhase_target_cases (m : MissileState) (dt : ℝ)
    (obs : ℕ → TargetObs) (jrand : ℝ) :
    (Missile.jinkPhase m dt obs jrand).target = m.target ∨
    (Missile.jinkPhase m dt obs jrand).target = none := by
  obtain ⟨mp, mv, mtg, mow, mal, mag, mar, mdt, mcf, mpa, mjc, mdp⟩ := m
  cases mtg <;> cases mpa <;> unfold Missile.jinkPhase <;> dsimp only <;>
    first
      | (left; rfl)
      | (right; rfl)
      | (split_ifs <;> first
          | (left; rfl)
          | (right; rfl))

theorem Missile.guidance_vel_noLive (m : MissileState) (dt : ℝ) (obs : ℕ → TargetObs)
    (h : Missile.noLiveTarget m obs) :
    (Missile.guidance m dt obs).1.vel = m.vel := by
  unfold Missile.guidance
  cases htg : m.target with
  | none => rfl
  | some tid =>
    simp only [Missile.noLiveTarget, htg] at h
    dsimp only
    rw [if_neg (by rw [h]; simp)]

/-- C4: Missile speed invariant.  (1) For a missile constructed with a
non-zero launch velocity, every state reachable through any sequence of
update ticks has velocity of magnitude exactly `MISSILE.SPEED` (the
constructor normalizes, and each guided tick renormalizes).  (2) On a tick
with no live target (reference absent, or referenced aircraft dead) the
velocity vector is left unchanged — the missile coasts straight. -/
theorem missile_speed_invariant :
    (∀ (pos vel : Vec3) (target owner : Option ℕ), vel ≠ v3 0 0 0 →
       ∀ m, Missile.Reachable (Missile.init pos vel target owner) m →
         norm3 m.vel = WEAPONS.MISSILE.SPEED) ∧
    (∀ (m : MissileState) (dt : ℝ) (flares : List Flare) (obs : ℕ → TargetObs)
       (frand : ℕ → ℝ) (jrand : ℝ), Missile.noLiveTarget m obs →
       (Missile.update m dt flares obs frand jrand).1.vel = m.vel) := by
  constructor
  · intro pos vel target owner hv m hreach
    induction hreach with
    | init =>
      unfold Missile.init
      exact norm3_renorm vel WEAPONS.MISSILE.SPEED hv
        (by unfold WEAPONS.MISSILE.SPEED; norm_num)
    | step m dt flares obs frand jrand hr ih =>
      exact Missile.update_vel_norm m dt flares obs frand jrand ih
  · intro m dt flares obs frand jrand h
    unfold Missile.update
    dsimp only
    split_ifs with h1 h2
    · rfl
    · rfl
    · set m1 : MissileState := { m with age := m.age + dt } with hm1
      have htg1 : m1.target = m.target := rfl
      set m3 := Missile.armStep m1 dt with hm3
      set mf := (Missile.flarePhase m3 flares obs frand).1 with hmf
      set m4 := Missile.jinkPhase mf dt obs jrand with hm4
      have hvel : m4.vel = m.vel := by
        rw [hm4, Missile.jinkPhase_vel, hmf, Missile.flarePhase_vel, hm3,
          Missile.armStep_vel]
      have htg3 : m3.target = m.target := by rw [hm3, Missile.armStep_target]
      have hnolive4 : Missile.noLiveTarget m4 obs := by
        rcases Missile.jinkPhase_target_cases mf dt obs jrand with hj | hj
        · rcases Missile.flarePhase_target_cases m3 flares obs frand with hf | hf
          · have : m4.target = m.target := by
              rw [hm4, hj, hmf, hf, htg3]
            unfold Missile.noLiveTarget at h ⊢
            rw [this]
            exact h
          · have : m4.target = none := by rw [hm4, hj, hmf, hf]
            unfold Missile.noLiveTarget
            rw [this]
            trivial
        · have : m4.target = none := by rw [hm4, hj]
          unfold Missile.noLiveTarget
          rw [this]
          trivial
      rw [← hvel]
      exact Missile.guidance_vel_noLive m4 dt obs hnolive4

/-- A concrete missile coasting without a target reference. -/
def demoCoastMissile : MissileState := { demoMissile with target := none }

/-- Witness for C4: the constructor normalizes a concrete non-zero launch
velocity to `MISSILE.SPEED`, and a tick without a target leaves the
velocity unchanged. -/
theorem missile_speed_invariant_witness :
    norm3 (Missile.init (v3 0 0 0) (v3 0 0 (-1)) none none).vel = WEAPONS.MISSILE.SPEED ∧
    (Missile.update demoCoastMissile 1 [] demoObs (fun _ => 1) 1).1.vel
      = demoCoastMissile.vel := by
  constructor
  · exact missile_speed_invariant.1 (v3 0 0 0) (v3 0 0 (-1)) none none
      (by intro hh; rw [v3, v3] at hh; injection hh with h1 h2 h3; norm_num at h3)
      _ Missile.Reachable.init
  · exact missile_speed_invariant.2 demoCoastMissile 1 [] demoObs (fun _ => 1) 1
      (by unfold Missile.noLiveTarget demoCoastMissile; trivial)

/-! ## C7: MissileSystem fire gating (`MissileSystem.fire` / `fireAI`) -/

/-- The aircraft data read by `MissileSystem.fire`/`fireAI`: identity,
position, velocity and orientation (for `getForwardDirection`). -/
structure FireAircraft where
  aid : ℕ
  pos : Vec3
  vel : Vec3
  quat : Quat

/-- `Aircraft.getForwardDirection`: the local `-z` axis rotated by the
aircraft quaternion. -/
def getForwardDirection (q : Quat) : Vec3 := applyQuaternion (v3 0 0 (-1)) q

/-- The `MissileSystem` state (scene omitted). -/
structure MissileSystemState where
  missiles : List MissileState
  playerMissileCount : ℤ
  lockTimer : ℝ
  lockedTarget : Option ℕ
  lockingTarget : Option ℕ
  lockProgress : ℝ

/-- `MissileSystem.fire(aircraft)`: requires positive inventory and a
locked target; consumes one missile and spawns it under the fuselage,
targeting the locked target. -/
def MissileSystem.fire (s : MissileSystemState) (a : FireAircraft) :
    MissileSystemState × Option MissileState :=
  if s.playerMissileCount ≤ 0 then (s, none)
  else
    match s.lockedTarget with
    | none => (s, none)
    | some tid =>
      let s2 := { s with playerMissileCount := s.playerMissileCount - 1 }
      let forward := getForwardDirection a.quat
      let spawnPos0 := a.pos + smul3 5 forward
      let spawnPos : Vec3 := ⟨spawnPos0.x, spawnPos0.y - 1.5, spawnPos0.z⟩
      let missile := Missile.init spawnPos
        (smul3 WEAPONS.MISSILE.SPEED forward + a.vel) (some tid) (some a.aid)
      ({ s2 with missiles := s2.missiles ++ [missile] }, some missile)

/-- `MissileSystem.fireAI(aircraft, target)`: unconditional launch at the
passed target. -/
def MissileSystem.fireAI (s : MissileSystemState) (a : FireAircraft) (target : ℕ) :
    MissileSystemState × Option MissileState :=
  let forward := getForwardDirection a.quat
  let spawnPos := a.pos + smul3 5 forward
  let missile := Missile.init spawnPos
    (smul3 WEAPONS.MISSILE.SPEED forward + a.vel) (some target) (some a.aid)
  ({ s with missiles := s.missiles ++ [missile] }, some missile)

/-- C7: Missile fire gating.  `fire` returns `null` and leaves the whole
system state (inventory, lock state, missile list) unchanged when the
inventory is non-positive or no target is locked; with a locked target and
positive inventory it returns a missile targeting the locked target,
decrements the inventory by exactly one, appends exactly that missile, and
leaves the lock state untouched.  `fireAI` creates a missile
unconditionally, targeting exactly the aircraft id passed to it, without
touching the inventory or lock state. -/
theorem missile_fire_gating :
    (∀ (s : MissileSystemState) (a : FireAircraft),
       s.playerMissileCount ≤ 0 → MissileSystem.fire s a = (s, none)) ∧
    (∀ (s : MissileSystemState) (a : FireAircraft),
       s.lockedTarget = none → MissileSystem.fire s a = (s, none)) ∧
    (∀ (s : MissileSystemState) (a : FireAircraft) (tid : ℕ),
       0 < s.playerMissileCount → s.lockedTarget = some tid →
       ∃ msl : MissileState,
         MissileSystem.fire s a =
           ({ s with playerMissileCount := s.playerMissileCount - 1,
                     missiles := s.missiles ++ [msl] }, some msl) ∧
         msl.target = some tid) ∧
    (∀ (s : MissileSystemState) (a : FireAircraft) (target : ℕ),
       ∃ msl : MissileState,
         MissileSystem.fireAI s a target =
           ({ s with missiles := s.missiles ++ [msl] }, some msl) ∧
         msl.target = some target) := by
  refine ⟨?_, ?_, ?_, ?_⟩
  · intro s a h
    unfold MissileSystem.fire
    rw [if_pos h]
  · intro s a h
    unfold MissileSystem.fire
    rw [h]
    split_ifs <;> rfl
  · intro s a tid hcount hlock
    unfold MissileSystem.fire
    rw [if_neg (not_le.mpr hcount), hlock]
    exact ⟨_, rfl, rfl⟩
  · intro s a target
    unfold MissileSystem.fireAI
    exact ⟨_, rfl, rfl⟩

/-- Witness for C7: with 4 missiles and target 2 locked, `fire` succeeds
and the inventory drops to 3; with 0 missiles it returns `null` unchanged;
`fireAI` targets the passed aircraft. -/
theorem missile_fire_gating_witness :
    (MissileSystem.fire
      { missiles := [], playerMissileCount := 0, lockTimer := 0,
        lockedTarget := some 2, lockingTarget := some 2, lockProgress := 1 }
      { aid := 9, pos := v3 0 0 0, vel := v3 0 0 (-100), quat := quatIdentity }).2 = none ∧
    (MissileSystem.fire
      { missiles := [], playerMissileCount := 4, lockTimer := 0,
        lockedTarget := some 2, lockingTarget := some 2, lockProgress := 1 }
      { aid := 9, pos := v3 0 0 0, vel := v3 0 0 (-100),
        quat := quatIdentity }).1.playerMissileCount = 3 ∧
    ∃ msl : MissileState,
      (MissileSystem.fireAI
        { missiles := [], playerMissileCount := 4, lockTimer := 0,
          lockedTarget := none, lockingTarget := none, lockProgress := 0 }
        { aid := 9, pos := v3 0 0 0, vel := v3 0 0 (-100), quat := quatIdentity } 7).2
        = some msl ∧ msl.target = some 7 := by
  refine ⟨?_, ?_, ?_⟩
  · rw [missile_fire_gating.1 _ _ (by norm_num)]
  · obtain ⟨msl, heq, _⟩ := missile_fire_gating.2.2.1
      { missiles := [], playerMissileCount := 4, lockTimer := 0,
        lockedTarget := some 2, lockingTarget := some 2, lockProgress := 1 }
      { aid := 9, pos := v3 0 0 0, vel := v3 0 0 (-100), quat := quatIdentity }
      2 (by norm_num) rfl
    rw [heq]
    norm_num
  · obtain ⟨msl, heq, htg⟩ := missile_fire_gating.2.2.2
      { missiles := [], playerMissileCount := 4, lockTimer := 0,
        lockedTarget := none, lockingTarget := none, lockProgress := 0 }
      { aid := 9, pos := v3 0 0 0, vel := v3 0 0 (-100), quat := quatIdentity } 7
    exact ⟨msl, by rw [heq], htg⟩

/-! ## C8: AI Patrol-to-Engage transition (`EnemyAircraft.updateState`) -/

/-- The AI mode of an enemy aircraft. -/
inductive AIState where
  | PATROL
  | ENGAGE
  | EVADE
  | RETURN
deriving DecidableEq

/-- The slice of `EnemyAircraft` state read and written by `updateState`. -/
structure EnemyState where
  aiState : AIState
  stateTimer : ℝ
  reactionTimer : ℝ
  targetRef : Option ℕ
  position : Vec3
  patrolCenter : Vec3
  deployFlares : Bool

/-- `EnemyAircraft.updateState(dt, distToPlayer, dotToPlayer, player,
incomingMissiles)`.  The player is identified by `playerId`; `playerAlive`
is the player's alive flag; `incomingMissiles` carries the missiles
currently targeting this aircraft. -/
def EnemyAircraft.updateState (e : EnemyState) (dt distToPlayer dotToPlayer : ℝ)
    (playerId : ℕ) (playerAlive : Bool) (incomingMissiles : List ℕ) : EnemyState :=
  if 0 < incomingMissiles.length ∧ e.aiState ≠ AIState.EVADE then
    { e with aiState := AIState.EVADE, stateTimer := 0, deployFlares := true }
  else
    match e.aiState with
    | AIState.PATROL =>
      if distToPlayer < ENEMY.DETECTION_RANGE ∧ playerAlive = true ∧ e.reactionTimer ≤ 0 then
        { e with aiState := AIState.ENGAGE, targetRef := some playerId, stateTimer := 0 }
      else e
    | AIState.ENGAGE =>
      if ¬ playerAlive = true ∨ ENEMY.DISENGAGE_RANGE < distToPlayer then
        { e with aiState := AIState.RETURN, stateTimer := 0 }
      else e
    | AIState.EVADE =>
      if 4 < e.stateTimer ∨ incomingMissiles.length = 0 then
        { e with
            aiState := if distToPlayer < ENEMY.DETECTION_RANGE then AIState.ENGAGE
                       else AIState.RETURN
            stateTimer := 0 }
      else e
    | AIState.RETURN =>
      let distToPatrol := dist3 e.position e.patrolCenter
      if distToPatrol < ENEMY.PATROL_RADIUS * 0.5 then
        { e with aiState := AIState.PATROL, stateTimer := 0 }
      else if distToPlayer < ENEMY.DETECTION_RANGE * 0.6 ∧ playerAlive = true then
        { e with aiState := AIState.ENGAGE, stateTimer := 0 }
      else e

/-- C8: AI Patrol-to-Engage transition.  For an enemy in `PATROL` with no
missile tracking it, a state-update tick moves it to `ENGAGE` exactly when
the player is alive, the distance to the player is below
`ENEMY.DETECTION_RANGE`, and the reaction timer has elapsed
(`reactionTimer ≤ 0`); otherwise the state record is left completely
unchanged (it remains in `PATROL`). -/
theorem patrol_to_engage (e : EnemyState) (dt distToPlayer dotToPlayer : ℝ)
    (playerId : ℕ) (playerAlive : Bool)
    (hp : e.aiState = AIState.PATROL) :
    ((EnemyAircraft.updateState e dt distToPlayer dotToPlayer playerId playerAlive
        []).aiState = AIState.ENGAGE ↔
      (playerAlive = true ∧ distToPlayer < ENEMY.DETECTION_RANGE ∧ e.reactionTimer ≤ 0)) ∧
    (¬ (playerAlive = true ∧ distToPlayer < ENEMY.DETECTION_RANGE ∧ e.reactionTimer ≤ 0) →
      EnemyAircraft.updateState e dt distToPlayer dotToPlayer playerId playerAlive [] = e) := by
  unfold EnemyAircraft.updateState
  rw [if_neg (by simp)]
  rw [hp]
  constructor
  · constructor
    · intro h
      by_contra hc
      rw [if_neg (fun hh => hc ⟨hh.2.1, hh.1, hh.2.2⟩)] at h
      rw [hp] at h
      exact absurd h (by simp)
    · intro ⟨ha, hd, hr⟩
      rw [if_pos ⟨hd, ha, hr⟩]
  · intro hc
    rw [if_neg (fun hh => hc ⟨hh.2.1, hh.1, hh.2.2⟩)]

/-- Witness for C8: a patrolling enemy with the player alive at distance 0
and an expired reaction timer transitions to `ENGAGE`; with the reaction
timer still running it stays exactly in its `PATROL` state. -/
theorem patrol_to_engage_witness :
    (EnemyAircraft.updateState
      { aiState := AIState.PATROL, stateTimer := 0, reactionTimer := -1,
        targetRef := none, position := v3 0 0 0, patrolCenter := v3 0 0 0,
        deployFlares := false } 1 0 1 0 true []).aiState = AIState.ENGAGE ∧
    EnemyAircraft.updateState
      { aiState := AIState.PATROL, stateTimer := 0, reactionTimer := 1.2,
        targetRef := none, position := v3 0 0 0, patrolCenter := v3 0 0 0,
        deployFlares := false } 1 0 1 0 true [] =
      { aiState := AIState.PATROL, stateTimer := 0, reactionTimer := 1.2,
        targetRef := none, position := v3 0 0 0, patrolCenter := v3 0 0 0,
        deployFlares := false } := by
  constructor
  · exact (patrol_to_engage _ 1 0 1 0 true rfl).1.mpr
      ⟨rfl, by norm_num [ENEMY.DETECTION_RANGE], by norm_num⟩
  · exact (patrol_to_engage _ 1 0 1 0 true rfl).2 (by intro ⟨_, _, hr⟩; norm_num at hr)

/-! ## C10: gun projectiles never hit their owner (`ProjectilePool.update`) -/

/-- Damage source tag passed to `Aircraft.applyDamage`. -/
inductive DamageSource where
  | gun
  | missile
deriving DecidableEq

/-- The target data read and written by the projectile pool: identity,
position, collision radius, health, alive flag and last damage source. -/
structure PoolTarget where
  aid : ℕ
  pos : Vec3
  collisionRadius : ℝ
  health : ℝ
  alive : Bool
  lastDamageSource : Option DamageSource

/-- `Aircraft.applyDamage(amount, source)`. -/
def Aircraft.applyDamage (t : PoolTarget) (amount : ℝ) (source : DamageSource) :
    PoolTarget :=
  let t1 := { t with health := t.health - amount, lastDamageSource := some source }
  if t1.health ≤ 0 then { t1 with health := 0, alive := false } else t1

/-- A gun round (tracer rendering omitted). -/
structure Proj where
  pos : Vec3
  vel : Vec3
  owner : ℕ
  alive : Bool
  age : ℝ
  maxAge : ℝ
  damage : ℝ

/-- `Projectile.update(dt)`: age out at `maxAge`, otherwise fly ballistically. -/
def Projectile.updateP (p : Proj) (dt : ℝ) : Proj :=
  if p.alive = false then p
  else
    let p1 := { p with age := p.age + dt }
    if p1.maxAge < p1.age then { p1 with alive := false }
    else { p1 with pos := p1.pos + smul3 dt p1.vel }

/-- The target-collision loop of `ProjectilePool.update` for one projectile:
the first target in list order that is not the projectile's owner, is
alive, and lies within its hit radius (`collisionRadius || 10`) takes the
projectile's damage.  Returns the id of the hit target (if any) and the
updated target list. -/
def ProjectilePool.hitScan (p : Proj) : List PoolTarget → Option ℕ × List PoolTarget
  | [] => (none, [])
  | t :: rest =>
    if t.aid = p.owner ∨ t.alive = false then
      let r := ProjectilePool.hitScan p rest
      (r.1, t :: r.2)
    else
      let hitRadius := if t.collisionRadius = 0 then 10 else t.collisionRadius
      if dist3 p.pos t.pos < hitRadius then
        (some t.aid, Aircraft.applyDamage t p.damage DamageSource.gun :: rest)
      else
        let r := ProjectilePool.hitScan p rest
        (r.1, t :: r.2)

/-- A hit event pushed by `ProjectilePool.update`: the aircraft hit and the
projectile position. -/
structure PoolHit where
  aid : ℕ
  pos : Vec3

/-- The per-projectile loop of `ProjectilePool.update`, processing the
projectiles in iteration order (the source iterates the array from the
end; `ProjectilePool.update` below reverses accordingly): advance each
round, drop expired rounds, drop rounds that hit terrain, and apply the
first target hit. -/
def ProjectilePool.go (dt : ℝ) (terrain : Vec3 → Bool) :
    List Proj → List PoolTarget → List Proj × List PoolTarget × List PoolHit
  | [], ts => ([], ts, [])
  | p :: rest, ts =>
    let p1 := Projectile.updateP p dt
    if p1.alive = false then ProjectilePool.go dt terrain rest ts
    else if terrain p1.pos then ProjectilePool.go dt terrain rest ts
    else
      match hscan : ProjectilePool.hitScan p1 ts with
      | (some aid, ts2) =>
        let r := ProjectilePool.go dt terrain rest ts2
        (r.1, r.2.1, ⟨aid, p1.pos⟩ :: r.2.2)
      | (none, _) =>
        let r := ProjectilePool.go dt terrain rest ts
        (p1 :: r.1, r.2.1, r.2.2)

/-- `ProjectilePool.update(dt, targets, terrain)`: the source iterates the
projectile array from the last index down to 0, splicing dead rounds out;
surviving rounds keep their relative order. -/
def ProjectilePool.update (projectiles : List Proj) (targets : List PoolTarget)
    (terrain : Vec3 → Bool) (dt : ℝ) : List Proj × List PoolTarget × List PoolHit :=
  let r := ProjectilePool.go dt terrain projectiles.reverse targets
  (r.1.reverse, r.2.1, r.2.2)

theorem Projectile.updateP_owner (p : Proj) (dt : ℝ) :
    (Projectile.updateP p dt).owner = p.owner := by
  unfold Projectile.updateP
  dsimp only
  split_ifs <;> rfl

theorem ProjectilePool.hitScan_owner (p : Proj) (k : ℕ) (hk : p.owner = k) :
    ∀ ts : List PoolTarget,
      (ProjectilePool.hitScan p ts).1 ≠ some k ∧
      (∀ (i : ℕ) (t : PoolTarget), ts[i]? = some t → t.aid = k →
        (ProjectilePool.hitScan p ts).2[i]? = some t) := by
  intro ts
  induction ts with
  | nil =>
    constructor
    · intro h
      exact absurd h (by unfold ProjectilePool.hitScan; simp)
    · intro i t hmem
      simp at hmem
  | cons t rest IH =>
    unfold ProjectilePool.hitScan
    dsimp only
    split_ifs with h1 h2 h3 h4
    · refine ⟨IH.1, ?_⟩
      intro i u hu hk2
      match i with
      | 0 => simpa using hu
      | Nat.succ j =>
        simp only [List.getElem?_cons_succ] at hu ⊢
        exact IH.2 j u hu hk2
    · constructor
      · intro hcontra
        injection hcontra with he
        exact h1 (Or.inl (he.trans hk.symm))
      · intro i u hu hk2
        match i with
        | 0 =>
          simp only [List.getElem?_cons_zero, Option.some.injEq] at hu
          subst hu
          exact absurd (hk2.trans hk.symm) (fun hh => h1 (Or.inl hh))
        | Nat.succ j =>
          simp only [List.getElem?_cons_succ] at hu ⊢
          exact hu
    · refine ⟨IH.1, ?_⟩
      intro i u hu hk2
      match i with
      | 0 => simpa using hu
      | Nat.succ j =>
        simp only [List.getElem?_cons_succ] at hu ⊢
        exact IH.2 j u hu hk2
    · constructor
      · intro hcontra
        injection hcontra with he
        exact h1 (Or.inl (he.trans hk.symm))
      · intro i u hu hk2
        match i with
        | 0 =>
          simp only [List.getElem?_cons_zero, Option.some.injEq] at hu
          subst hu
          exact absurd (hk2.trans hk.symm) (fun hh => h1 (Or.inl hh))
        | Nat.succ j =>
          simp only [List.getElem?_cons_succ] at hu ⊢
          exact hu
    · refine ⟨IH.1, ?_⟩
      intro i u hu hk2
      match i with
      | 0 => simpa using hu
      | Nat.succ j =>
        simp only [List.getElem?_cons_succ] at hu ⊢
        exact IH.2 j u hu hk2

theorem ProjectilePool.go_owner (dt : ℝ) (terrain : Vec3 → Bool) (k : ℕ) :
    ∀ (ps : List Proj), (∀ p ∈ ps, p.owner = k) →
      ∀ (ts : List PoolTarget),
        (∀ hit ∈ (ProjectilePool.go dt terrain ps ts).2.2, hit.aid ≠ k) ∧
        (∀ (i : ℕ) (t : PoolTarget), ts[i]? = some t → t.aid = k →
          (ProjectilePool.go dt terrain ps ts).2.1[i]? = some t) := by
  intro ps
  induction ps with
  | nil =>
    intro _ ts
    constructor
    · intro hit hmem
      exact absurd hmem (by unfold ProjectilePool.go; simp)
    · intro i t hu _
      unfold ProjectilePool.go
      exact hu
  | cons p rest IH =>
    intro hown ts
    have hpk : (Projectile.updateP p dt).owner = k := by
      rw [Projectile.updateP_owner]
      exact hown p (List.mem_cons_self _ _)
    have hrest : ∀ q ∈ rest, q.owner = k := fun q hq => hown q (List.mem_cons_of_mem _ hq)
    unfold ProjectilePool.go
    dsimp only
    split_ifs with h1 h2
    · exact IH hrest ts
    · exact IH hrest ts
    · obtain ⟨hno, hpres⟩ := ProjectilePool.hitScan_owner (Projectile.updateP p dt) k hpk ts
      split
      · next aid ts2 heq =>
        have haidne : aid ≠ k := by
          intro hh
          rw [heq] at hno
          exact hno (by rw [hh])
        constructor
        · intro hit hmem
          rcases List.mem_cons.mp hmem with rfl | hmem2
          · exact haidne
          · exact (IH hrest ts2).1 hit hmem2
        · intro i t hu hk2
          have hts2 : ts2[i]? = some t := by
            have := hpres i t hu hk2
            rw [heq] at this
            exact this
          exact (IH hrest ts2).2 i t hts2 hk2
      · next heq =>
        constructor
        · exact (IH hrest ts).1
        · exact (IH hrest ts).2

/-- C10: Implicit owner immunity.  If every projectile in the pool was
fired by aircraft `k`, then a `ProjectilePool.update` tick reports no hit
on aircraft `k`, and every entry of the target list whose id is `k` comes
out of the tick exactly unchanged (health and alive flag untouched) — the
owner is skipped in the target loop even when it lies inside the hit
radius. -/
theorem projectile_owner_immunity (projectiles : List Proj) (targets : List PoolTarget)
    (terrain : Vec3 → Bool) (dt : ℝ) (k : ℕ)
    (h : ∀ p ∈ projectiles, p.owner = k) :
    (∀ hit ∈ (ProjectilePool.update projectiles targets terrain dt).2.2, hit.aid ≠ k) ∧
    (∀ (i : ℕ) (t : PoolTarget), targets[i]? = some t → t.aid = k →
      (ProjectilePool.update projectiles targets terrain dt).2.1[i]? = some t) := by
  unfold ProjectilePool.update
  dsimp only
  exact ProjectilePool.go_owner dt terrain k projectiles.reverse
    (fun p hp => h p (List.mem_reverse.mp hp)) targets

/-- A target record for aircraft 7 sitting right on top of the projectile. -/
def demoPoolTarget : PoolTarget :=
  { aid := 7, pos := v3 0 0 0, collisionRadius := 8, health := 60, alive := true,
    lastDamageSource := none }

/-- Witness for C10: a projectile owned by aircraft 7 flying through
aircraft 7 (distance 0, well inside the hit radius) leaves its record
untouched. -/
theorem projectile_owner_immunity_witness :
    (ProjectilePool.update
      [{ pos := v3 0 0 0, vel := v3 0 0 0, owner := 7, alive := true, age := 0,
         maxAge := 2, damage := 8 }]
      [demoPoolTarget] (fun _ => false) 0).2.1[0]? = some demoPoolTarget := by
  exact (projectile_owner_immunity
    [{ pos := v3 0 0 0, vel := v3 0 0 0, owner := 7, alive := true, age := 0,
       maxAge := 2, damage := 8 }]
    [demoPoolTarget] (fun _ => false) 0 7
    (by intro p hp; simp at hp; rw [hp])).2 0 demoPoolTarget rfl rfl

/-! ## Flight dynamics integrator (`FlightModel`, `src/core/FlightModel.js`) -/

/-- The control-intent record consumed by `FlightModel.update`. -/
structure ControlIntent where
  pitch : ℝ
  roll : ℝ
  yaw : ℝ
  throttle : ℝ
  useMouseAim : Bool
  mouseTargetDir : Option Vec3
  airbrake : Bool

/-- The aircraft state mutated by `FlightModel.update`. -/
structure AircraftState where
  position : Vec3
  velocity : Vec3
  quaternion : Quat
  angularVelocity : Vec3
  throttle : ℝ
  speed : ℝ
  health : ℝ
  alive : Bool
  gForce : ℝ
  previousVelocity : Vec3

/-- `FlightModel.computeInstructorInputs(aircraft, targetDir)`: the
War-Thunder-style instructor converting a desired look direction into
(pitch, roll, yaw) inputs. -/
def FlightModel.computeInstructorInputs (a : AircraftState) (targetDir : Vec3) :
    ℝ × ℝ × ℝ :=
  let forward := applyQuaternion (v3 0 0 (-1)) a.quaternion
  let up := applyQuaternion (v3 0 1 0) a.quaternion
  let right := applyQuaternion (v3 1 0 0) a.quaternion
  let d := dot3 forward targetDir
  let errorAngle := Real.arccos (min 1 (max (-1) d))
  let cross := cross3 forward targetDir
  let pitchError := -(dot3 up targetDir)
  let yawError := dot3 right targetDir
  let errorNorm := min 1 (errorAngle / 0.8)
  let sensitivity := errorNorm * errorNorm
  let rollInput0 : ℝ :=
    if 0.03 < errorAngle then clampR (yawError * 3.0 * min 1 (errorAngle / 0.3)) (-1) 1
    else 0
  let rollInput : ℝ :=
    if errorAngle < 0.15 then
      let bankAngle := atan2 (dot3 right (v3 0 1 0)) (dot3 up (v3 0 1 0))
      let levelRoll := -bankAngle * 2.0 * (1 - errorAngle / 0.15)
      clampR (rollInput0 + clampR levelRoll (-0.5) 0.5) (-1) 1
    else rollInput0
  let pitchInput : ℝ :=
    if 0.02 < errorAngle then
      let verticalError := dot3 cross right
      let p1 := clampR (verticalError * 3.0) (-1) 1
      clampR (p1 + pitchError * 2.0 * (1 - sensitivity)) (-1) 1
    else 0
  let yawInput := clampR (-yawError * 0.5) (-0.3) 0.3
  (pitchInput, rollInput, yawInput)

/-- The first part of `FlightModel.update`: throttle/speed bookkeeping,
control-input resolution (instructor or direct), angular-velocity damping,
quaternion integration with renormalization, and the velocity-alignment
(sideslip reduction) step. -/
def FlightModel.postAttitude (a : AircraftState) (input : ControlIntent) (dt : ℝ) :
    AircraftState :=
  let a1 := { a with throttle := input.throttle }
  let a2 := { a1 with speed := norm3 a1.velocity }
  let controlAuthority := min 1 ((a2.speed / PHYSICS.MIN_SPEED_FOR_CONTROL) ^ (0.7 : ℝ))
  let inputs : ℝ × ℝ × ℝ :=
    if input.useMouseAim = true ∧ input.mouseTargetDir.isSome = true then
      FlightModel.computeInstructorInputs a2 (input.mouseTargetDir.getD (v3 0 0 0))
    else (input.pitch, input.roll, input.yaw)
  let targetPitch := inputs.1 * PHYSICS.PITCH_RATE * controlAuthority
  let targetRoll := inputs.2.1 * PHYSICS.ROLL_RATE * controlAuthority
  let targetYaw := inputs.2.2 * PHYSICS.YAW_RATE * controlAuthority
  let pitchLerp := min 1 (PHYSICS.PITCH_DAMPING * dt)
  let rollLerp := min 1 (PHYSICS.ROLL_DAMPING * dt)
  let yawLerp := min 1 (PHYSICS.YAW_DAMPING * dt)
  let av : Vec3 :=
    ⟨a2.angularVelocity.x + (targetPitch - a2.angularVelocity.x) * pitchLerp,
     a2.angularVelocity.y + (targetYaw - a2.angularVelocity.y) * yawLerp,
     a2.angularVelocity.z + (targetRoll - a2.angularVelocity.z) * rollLerp⟩
  let a3 := { a2 with angularVelocity := av }
  let angMag := norm3 av
  let a4 : AircraftState :=
    if 0.0001 < angMag then
      let axis := normalize3 av
      let worldAxis := applyQuaternion axis a3.quaternion
      let delta := quatFromAxisAngle worldAxis (angMag * dt)
      { a3 with quaternion := quatNormalize (quatMul delta a3.quaternion) }
    else a3
  if 20 < a4.speed then
    let velNorm := normalize3 a4.velocity
    let currentForward := applyQuaternion (v3 0 0 (-1)) a4.quaternion
    let alignQuat := quatSlerp (setFromUnitVectors velNorm currentForward) quatIdentity
      (1 - PHYSICS.VELOCITY_ALIGNMENT * dt)
    let v1 := applyQuaternion a4.velocity alignQuat
    { a4 with velocity := smul3 a4.speed (normalize3 v1) }
  else a4

/-- The force/acceleration computation of `FlightModel.update` (angle of
attack, lift with soft stall and low-speed lift cutoff, induced and
parasitic drag with the airbrake multiplier, thrust with engine-off
semantics at zero throttle, gravity), returning the acceleration and the
displayed G-force.  `rightOld` is the right axis captured from the
pre-rotation quaternion, as in the source. -/
def FlightModel.accelGF (a1 : AircraftState) (rightOld : Vec3) (input : ControlIntent) :
    Vec3 × ℝ :=
  let forward := applyQuaternion (v3 0 0 (-1)) a1.quaternion
  let up := applyQuaternion (v3 0 1 0) a1.quaternion
  let altitude := max 0 a1.position.y
  let rho := PHYSICS.AIR_DENSITY_SEA_LEVEL * Real.exp (-altitude / 15000)
  let speedSq := a1.speed * a1.speed
  let q := 0.5 * rho * speedSq
  let aoa0 : ℝ :=
    if 1 < a1.speed then
      let velNorm := normalize3 a1.velocity
      atan2 (-(dot3 up velNorm)) (dot3 forward velNorm)
    else 0
  let aoa := clampR aoa0 (-PHYSICS.MAX_AOA) PHYSICS.MAX_AOA
  let Cl0 := PHYSICS.CL_PER_AOA * aoa
  let Cl1 :=
    if PHYSICS.STALL_AOA < |aoa| then
      Cl0 * max 0.35 (1 - (|aoa| - PHYSICS.STALL_AOA) /
        (PHYSICS.MAX_AOA - PHYSICS.STALL_AOA))
    else Cl0
  let Cl := clampR Cl1 (-PHYSICS.CL_MAX) PHYSICS.CL_MAX
  let liftSpeedFactor := clampR ((a1.speed - 113 * 0.7) / (113 * 0.3)) 0 1
  let liftMagnitude := q * PHYSICS.WING_AREA * Cl * liftSpeedFactor
  let liftDir : Vec3 :=
    if 5 < a1.speed then
      let ld := normalize3 (cross3 (normalize3 a1.velocity) rightOld)
      if dot3 ld up < 0 then neg3 ld else ld
    else v3 0 1 0
  let Cd := PHYSICS.CD0 +
    Cl * Cl / (Real.pi * PHYSICS.aspectRatio * PHYSICS.OSWALD_EFFICIENCY)
  let dragMagnitude := q * PHYSICS.WING_AREA * Cd
  let dragDir : Vec3 := if 1 < a1.speed then neg3 (normalize3 a1.velocity) else v3 0 0 0
  let thrustMagnitude : ℝ :=
    if 0 < a1.throttle then
      PHYSICS.IDLE_THRUST + (PHYSICS.MAX_THRUST - PHYSICS.IDLE_THRUST) * a1.throttle
    else 0
  let airbrakeFactor : ℝ := if input.airbrake = true then 6.0 else 1.0
  let force := v3 0 (-(PHYSICS.GRAVITY * PHYSICS.MASS)) 0
    + smul3 liftMagnitude liftDir
    + smul3 (dragMagnitude * airbrakeFactor) dragDir
    + smul3 thrustMagnitude forward
  let acceleration := smul3 (1 / PHYSICS.MASS) force
  let gUp := dot3 (acceleration + v3 0 PHYSICS.GRAVITY 0) up / PHYSICS.GRAVITY
  (acceleration, gUp)

/-- The acceleration and G-force of this tick (the source captures the
right axis before the rotation update and reuses it for the lift
direction). -/
def FlightModel.accelOf (a : AircraftState) (input : ControlIntent) (dt : ℝ) : Vec3 × ℝ :=
  FlightModel.accelGF (FlightModel.postAttitude a input dt)
    (applyQuaternion (v3 1 0 0) a.quaternion) input

/-- Velocity after the semi-implicit Euler step `velocity += accel · dt`. -/
def FlightModel.velAfterAccel (a : AircraftState) (input : ControlIntent) (dt : ℝ) : Vec3 :=
  (FlightModel.postAttitude a input dt).velocity + smul3 dt (FlightModel.accelOf a input dt).1

/-- `currentSpeed` as captured by the source before the speed clamps. -/
def FlightModel.currentSpeedOf (a : AircraftState) (input : ControlIntent) (dt : ℝ) : ℝ :=
  norm3 (FlightModel.velAfterAccel a input dt)

/-- The arcade minimum-speed floor: airbrake allows a much lower speed. -/
def FlightModel.effectiveMinSpeed (airbrake : Bool) : ℝ :=
  if airbrake = true then PHYSICS.MIN_SPEED_CLAMP * 0.4 else PHYSICS.MIN_SPEED_CLAMP

/-- Velocity after the maximum-speed clamp. -/
def FlightModel.velMaxClamped (a : AircraftState) (input : ControlIntent) (dt : ℝ) : Vec3 :=
  if PHYSICS.MAX_SPEED < FlightModel.currentSpeedOf a input dt then
    smul3 PHYSICS.MAX_SPEED (normalize3 (FlightModel.velAfterAccel a input dt))
  else FlightModel.velAfterAccel a input dt

/-- Velocity after both speed clamps (the minimum clamp fires only above
50 altitude). -/
def FlightModel.clampedVelocity (a : AircraftState) (input : ControlIntent) (dt : ℝ) : Vec3 :=
  if FlightModel.currentSpeedOf a input dt < FlightModel.effectiveMinSpeed input.airbrake ∧
      50 < (FlightModel.postAttitude a input dt).position.y then
    smul3 (FlightModel.effectiveMinSpeed input.airbrake)
      (normalize3 (FlightModel.velMaxClamped a input dt))
  else FlightModel.velMaxClamped a input dt

/-- Position after `position += velocity · dt`, before the ground clamp. -/
def FlightModel.rawNewPosition (a : AircraftState) (input : ControlIntent) (dt : ℝ) : Vec3 :=
  (FlightModel.postAttitude a input dt).position +
    smul3 dt (FlightModel.clampedVelocity a input dt)

/-- State after integration, speed clamps and the emergency ground clamp
(`y ≥ 0` with downward vertical velocity zeroed on contact). -/
def FlightModel.postIntegrate (a : AircraftState) (input : ControlIntent) (dt : ℝ) :
    AircraftState :=
  let a1 := FlightModel.postAttitude a input dt
  let pos := FlightModel.rawNewPosition a input dt
  let vcl := FlightModel.clampedVelocity a input dt
  let a2 := { a1 with gForce := (FlightModel.accelOf a input dt).2,
                      velocity := vcl, position := pos }
  if pos.y < 0 then
    { a2 with position := ⟨pos.x, 0, pos.z⟩,
              velocity := if vcl.y < 0 then ⟨vcl.x, 0, vcl.z⟩ else vcl }
  else a2

/-- The world-boundary block of `FlightModel.update`: beyond the soft
radius, blend the horizontal velocity toward the center and nudge the nose;
beyond the hard radius, rescale `position.x`/`position.z` back onto the
hard circle. -/
def FlightModel.boundaryPhase (a : AircraftState) : AircraftState :=
  let distFromCenter := Real.sqrt (a.position.x * a.position.x + a.position.z * a.position.z)
  if WORLD.BOUNDARY_SOFT < distFromCenter then
    let urgency := clampR ((distFromCenter - WORLD.BOUNDARY_SOFT) /
      (WORLD.BOUNDARY_HARD - WORLD.BOUNDARY_SOFT)) 0 1
    let toCenter := normalize3 (v3 (-a.position.x) 0 (-a.position.z))
    let currentHoriz : Vec3 := v3 a.velocity.x 0 a.velocity.z
    let horizSpeed := norm3 currentHoriz
    let a1 :=
      if 1 < horizSpeed then
        let currentDir := normalize3 currentHoriz
        let blended := normalize3 (lerp3 currentDir toCenter (urgency * urgency))
        { a with velocity := ⟨blended.x * horizSpeed, a.velocity.y, blended.z * horizSpeed⟩ }
      else a
    let a2 :=
      if 0.3 < urgency then
        let currentForward := applyQuaternion (v3 0 0 (-1)) a1.quaternion
        let horizForward := normalize3 (v3 currentForward.x 0 currentForward.z)
        let targetDir := normalize3 (lerp3 horizForward toCenter (urgency * 0.5))
        let fullTarget := normalize3 (v3 targetDir.x currentForward.y targetDir.z)
        let turnQuat := setFromUnitVectors currentForward fullTarget
        { a1 with quaternion := quatNormalize (quatMul turnQuat a1.quaternion) }
      else a1
    if WORLD.BOUNDARY_HARD < distFromCenter then
      let scale := WORLD.BOUNDARY_HARD / distFromCenter
      { a2 with position := ⟨a2.position.x * scale, a2.position.y, a2.position.z * scale⟩ }
    else a2
  else a

/-- `FlightModel.update(aircraft, input, dt)`: silently no-ops when the
aircraft is not alive; otherwise attitude update, force integration, speed
clamps, ground clamp, world-boundary handling, and final speed /
previous-velocity bookkeeping. -/
def FlightModel.update (a : AircraftState) (input : ControlIntent) (dt : ℝ) :
    AircraftState :=
  if a.alive = false then a
  else
    let a5 := FlightModel.boundaryPhase (FlightModel.postIntegrate a input dt)
    { a5 with speed := norm3 a5.velocity, previousVelocity := a5.velocity }

/-! ## FlightModel projection and evaluation lemmas -/

theorem smul3_zero (v : Vec3) : smul3 0 v = v3 0 0 0 := by
  unfold smul3 v3
  norm_num

theorem smul3_zero_vec (s : ℝ) : smul3 s (v3 0 0 0) = v3 0 0 0 := by
  unfold smul3 v3
  norm_num

theorem add3_zero (v : Vec3) : v + v3 0 0 0 = v := by
  rw [Vec3.add_def]
  unfold v3
  norm_num

theorem smul3_smul3 (s t : ℝ) (v : Vec3) : smul3 s (smul3 t v) = smul3 (s * t) v := by
  unfold smul3
  ext <;> dsimp <;> ring

theorem smul3_one (v : Vec3) : smul3 1 v = v := by
  unfold smul3
  ext <;> dsimp <;> ring

theorem smul3_norm_normalize (v : Vec3) (h : v ≠ v3 0 0 0) :
    smul3 (norm3 v) (normalize3 v) = v := by
  have hp := norm3_pos_of_ne v h
  unfold normalize3
  rw [if_neg (ne_of_gt hp), smul3_smul3]
  rw [show norm3 v * (1 / norm3 v) = 1 by field_simp]
  exact smul3_one v

theorem applyQuaternion_identity (v : Vec3) : applyQuaternion v quatIdentity = v := by
  unfold applyQuaternion quatIdentity
  ext <;> dsimp <;> ring

theorem quatSlerp_one (qa qb : Quat) : quatSlerp qa qb 1 = qb := by
  unfold quatSlerp
  rw [if_neg one_ne_zero, if_pos rfl]

theorem FlightModel.postAttitude_position (a : AircraftState) (i : ControlIntent) (dt : ℝ) :
    (FlightModel.postAttitude a i dt).position = a.position := by
  unfold FlightModel.postAttitude
  dsimp only
  split_ifs <;> rfl

theorem FlightModel.postAttitude_throttle (a : AircraftState) (i : ControlIntent) (dt : ℝ) :
    (FlightModel.postAttitude a i dt).throttle = i.throttle := by
  unfold FlightModel.postAttitude
  dsimp only
  split_ifs <;> rfl

theorem FlightModel.postAttitude_alive (a : AircraftState) (i : ControlIntent) (dt : ℝ) :
    (FlightModel.postAttitude a i dt).alive = a.alive := by
  unfold FlightModel.postAttitude
  dsimp only
  split_ifs <;> rfl

theorem FlightModel.postAttitude_speed (a : AircraftState) (i : ControlIntent) (dt : ℝ) :
    (FlightModel.postAttitude a i dt).speed = norm3 a.velocity := by
  unfold FlightModel.postAttitude
  dsimp only
  split_ifs <;> rfl

theorem FlightModel.postAttitude_velocity_of_slow (a : AircraftState) (i : ControlIntent)
    (dt : ℝ) (h : norm3 a.velocity ≤ 20) :
    (FlightModel.postAttitude a i dt).velocity = a.velocity := by
  unfold FlightModel.postAttitude
  dsimp only
  split_ifs <;> first
    | rfl
    | linarith

theorem smul3_norm_normalize_total (v : Vec3) :
    smul3 (norm3 v) (normalize3 v) = v := by
  by_cases h : v = v3 0 0 0
  · subst h
    rw [(norm3_eq_zero_iff _).mpr rfl, normalize3_zero, smul3_zero]
  · exact smul3_norm_normalize v h

theorem FlightModel.postAttitude_velocity_dtzero (a : AircraftState) (i : ControlIntent) :
    (FlightModel.postAttitude a i 0).velocity = a.velocity := by
  have hone : (1 : ℝ) - PHYSICS.VELOCITY_ALIGNMENT * 0 = 1 := by
    norm_num
  unfold FlightModel.postAttitude
  dsimp only
  rw [hone]
  split_ifs with h1 h2 h3 h4 h5 h6
  all_goals try rfl
  all_goals rw [quatSlerp_one, applyQuaternion_identity]
  all_goals exact smul3_norm_normalize_total a.velocity

theorem FlightModel.postIntegrate_throttle (a : AircraftState) (i : ControlIntent) (dt : ℝ) :
    (FlightModel.postIntegrate a i dt).throttle = i.throttle := by
  unfold FlightModel.postIntegrate
  dsimp only
  split_ifs <;> exact FlightModel.postAttitude_throttle a i dt

theorem FlightModel.postIntegrate_alive (a : AircraftState) (i : ControlIntent) (dt : ℝ) :
    (FlightModel.postIntegrate a i dt).alive = a.alive := by
  unfold FlightModel.postIntegrate
  dsimp only
  split_ifs <;> exact FlightModel.postAttitude_alive a i dt

theorem FlightModel.postIntegrate_ground_skip (a : AircraftState) (i : ControlIntent)
    (dt : ℝ) (h : 0 ≤ (FlightModel.rawNewPosition a i dt).y) :
    (FlightModel.postIntegrate a i dt).velocity = FlightModel.clampedVelocity a i dt ∧
    (FlightModel.postIntegrate a i dt).position = FlightModel.rawNewPosition a i dt := by
  unfold FlightModel.postIntegrate
  dsimp only
  rw [if_neg (not_lt.mpr h)]
  exact ⟨rfl, rfl⟩

theorem FlightModel.boundaryPhase_throttle (s : AircraftState) :
    (FlightModel.boundaryPhase s).throttle = s.throttle := by
  unfold FlightModel.boundaryPhase
  dsimp only
  split_ifs <;> rfl

theorem FlightModel.boundaryPhase_alive (s : AircraftState) :
    (FlightModel.boundaryPhase s).alive = s.alive := by
  unfold FlightModel.boundaryPhase
  dsimp only
  split_ifs <;> rfl

theorem FlightModel.boundaryPhase_skip (s : AircraftState)
    (h : Real.sqrt (s.position.x * s.position.x + s.position.z * s.position.z) ≤
      WORLD.BOUNDARY_SOFT) :
    FlightModel.boundaryPhase s = s := by
  unfold FlightModel.boundaryPhase
  dsimp only
  rw [if_neg (not_lt.mpr h)]

theorem FlightModel.update_of_dead (a : AircraftState) (i : ControlIntent) (dt : ℝ)
    (h : a.alive = false) : FlightModel.update a i dt = a := by
  unfold FlightModel.update
  rw [if_pos h]

theorem FlightModel.update_throttle (a : AircraftState) (i : ControlIntent) (dt : ℝ)
    (h : a.alive = true) : (FlightModel.update a i dt).throttle = i.throttle := by
  unfold FlightModel.update
  rw [if_neg (by rw [h]; simp)]
  dsimp only
  rw [FlightModel.boundaryPhase_throttle, FlightModel.postIntegrate_throttle]

/-- Modelled from the spec: a control-intent record with pitch/roll/yaw
clamped into `[-1, 1]` and throttle clamped into `[0, 1]` — the spec claims
the integrator behaves as if this clamping were applied internally. -/
def ControlIntent.clamped (i : ControlIntent) : ControlIntent :=
  { i with
      pitch := clampR i.pitch (-1) 1
      roll := clampR i.roll (-1) 1
      yaw := clampR i.yaw (-1) 1
      throttle := clampR i.throttle 0 1 }

/-- A live aircraft in level flight at altitude 100. -/
def demoAircraftFlying : AircraftState :=
  { position := v3 0 100 0, velocity := v3 100 0 0, quaternion := quatIdentity,
    angularVelocity := v3 0 0 0, throttle := 0.5, speed := 100, health := 60,
    alive := true, gForce := 1, previousVelocity := v3 100 0 0 }

/-- A keyboard intent with out-of-range throttle 2. -/
def demoOverIntent : ControlIntent :=
  { pitch := 0, roll := 0, yaw := 0, throttle := 2, useMouseAim := false,
    mouseTargetDir := none, airbrake := false }

/-- Counterexample to C5: the integrator does not clamp out-of-range intent
components internally — with throttle 2 the resulting aircraft state keeps
throttle 2, while the clamped intent yields throttle 1, so the two states
differ. -/
theorem control_clamp_counterexample :
    (FlightModel.update demoAircraftFlying demoOverIntent 0).throttle = 2 ∧
    (FlightModel.update demoAircraftFlying demoOverIntent.clamped 0).throttle = 1 ∧
    FlightModel.update demoAircraftFlying demoOverIntent 0 ≠
      FlightModel.update demoAircraftFlying demoOverIntent.clamped 0 := by
  have h1 : (FlightModel.update demoAircraftFlying demoOverIntent 0).throttle = 2 :=
    FlightModel.update_throttle _ _ _ rfl
  have h2 : (FlightModel.update demoAircraftFlying demoOverIntent.clamped 0).throttle = 1 := by
    rw [FlightModel.update_throttle _ _ _ rfl]
    unfold ControlIntent.clamped demoOverIntent clampR
    norm_num
  refine ⟨h1, h2, fun heq => ?_⟩
  rw [heq, h2] at h1
  norm_num at h1

/-- C5 (amended): the flight integrator never rejects a control-intent
record — it silently no-ops when the aircraft is not alive, and otherwise
always produces a state — but it does not clamp out-of-range components:
the raw intent values are used, in particular the aircraft's throttle field
is assigned the raw input throttle. -/
theorem intent_used_raw (a : AircraftState) (i : ControlIntent) (dt : ℝ) :
    (a.alive = false → FlightModel.update a i dt = a) ∧
    (a.alive = true → (FlightModel.update a i dt).throttle = i.throttle) :=
  ⟨FlightModel.update_of_dead a i dt, FlightModel.update_throttle a i dt⟩

/-- Witness for the amended C5: a dead aircraft is returned unchanged, and
on the live aircraft the raw out-of-range throttle 2 lands in the state. -/
theorem intent_used_raw_witness :
    FlightModel.update { demoAircraftFlying with alive := false } demoOverIntent 0 =
      { demoAircraftFlying with alive := false } ∧
    (FlightModel.update demoAircraftFlying demoOverIntent 0).throttle =
      demoOverIntent.throttle :=
  ⟨(intent_used_raw { demoAircraftFlying with alive := false } demoOverIntent 0).1 rfl,
   (intent_used_raw demoAircraftFlying demoOverIntent 0).2 rfl⟩

/-! ## C6: speed clamps -/

theorem FlightModel.effectiveMinSpeed_nonneg (b : Bool) :
    0 ≤ FlightModel.effectiveMinSpeed b := by
  unfold FlightModel.effectiveMinSpeed PHYSICS.MIN_SPEED_CLAMP
  split_ifs <;> norm_num

theorem FlightModel.effectiveMinSpeed_le (b : Bool) :
    FlightModel.effectiveMinSpeed b ≤ 80 := by
  unfold FlightModel.effectiveMinSpeed PHYSICS.MIN_SPEED_CLAMP
  split_ifs <;> norm_num

theorem normSq3_normalize3_le_one (v : Vec3) : normSq3 (normalize3 v) ≤ 1 := by
  have h := norm3_normalize3_le_one v
  have h0 := norm3_nonneg (normalize3 v)
  have hsq := norm3_sq (normalize3 v)
  nlinarith

theorem norm3_zeroY_le (v : Vec3) : norm3 (v3 v.x 0 v.z) ≤ norm3 v := by
  apply Real.sqrt_le_sqrt
  unfold normSq3 v3
  dsimp only
  nlinarith [mul_self_nonneg v.y]

theorem horiz_blend_norm_le (vel b : Vec3) (hb : normSq3 b ≤ 1) :
    norm3 (⟨b.x * norm3 (v3 vel.x 0 vel.z), vel.y,
      b.z * norm3 (v3 vel.x 0 vel.z)⟩ : Vec3) ≤ norm3 vel := by
  apply Real.sqrt_le_sqrt
  have hh : norm3 (v3 vel.x 0 vel.z) * norm3 (v3 vel.x 0 vel.z) =
      vel.x * vel.x + 0 * 0 + vel.z * vel.z := norm3_sq _
  unfold normSq3 at hb ⊢
  dsimp only
  nlinarith [norm3_nonneg (v3 vel.x 0 vel.z), mul_self_nonneg b.y,
    mul_self_nonneg (norm3 (v3 vel.x 0 vel.z))]

theorem FlightModel.clampedVelocity_le_max (a : AircraftState) (i : ControlIntent)
    (dt : ℝ) : norm3 (FlightModel.clampedVelocity a i dt) ≤ PHYSICS.MAX_SPEED := by
  have hmax : (80 : ℝ) ≤ PHYSICS.MAX_SPEED := by unfold PHYSICS.MAX_SPEED; norm_num
  unfold FlightModel.clampedVelocity
  split_ifs with h1
  · rw [norm3_smul]
    rw [abs_of_nonneg (FlightModel.effectiveMinSpeed_nonneg i.airbrake)]
    have h2 := norm3_normalize3_le_one (FlightModel.velMaxClamped a i dt)
    have h3 := FlightModel.effectiveMinSpeed_le i.airbrake
    have h4 := FlightModel.effectiveMinSpeed_nonneg i.airbrake
    have h5 := norm3_nonneg (normalize3 (FlightModel.velMaxClamped a i dt))
    nlinarith
  · unfold FlightModel.velMaxClamped
    split_ifs with h2
    · rw [norm3_smul]
      rw [abs_of_nonneg (by unfold PHYSICS.MAX_SPEED; norm_num : (0:ℝ) ≤ PHYSICS.MAX_SPEED)]
      have h3 := norm3_normalize3_le_one (FlightModel.velAfterAccel a i dt)
      have h4 := norm3_nonneg (normalize3 (FlightModel.velAfterAccel a i dt))
      have h5 : (0:ℝ) ≤ PHYSICS.MAX_SPEED := by unfold PHYSICS.MAX_SPEED; norm_num
      nlinarith
    · exact not_lt.mp h2

theorem FlightModel.clampedVelocity_floor (a : AircraftState) (i : ControlIntent) (dt : ℝ)
    (hv : FlightModel.velAfterAccel a i dt ≠ v3 0 0 0) (hy : 50 < a.position.y) :
    FlightModel.effectiveMinSpeed i.airbrake ≤
      norm3 (FlightModel.clampedVelocity a i dt) := by
  have hy2 : 50 < (FlightModel.postAttitude a i dt).position.y := by
    rw [FlightModel.postAttitude_position]
    exact hy
  unfold FlightModel.clampedVelocity
  split_ifs with h1
  · have hcs : FlightModel.currentSpeedOf a i dt < FlightModel.effectiveMinSpeed i.airbrake :=
      h1.1
    have hnotmax : ¬ PHYSICS.MAX_SPEED < FlightModel.currentSpeedOf a i dt := by
      apply not_lt.mpr
      calc FlightModel.currentSpeedOf a i dt
        ≤ FlightModel.effectiveMinSpeed i.airbrake := le_of_lt hcs
        _ ≤ 80 := FlightModel.effectiveMinSpeed_le i.airbrake
        _ ≤ PHYSICS.MAX_SPEED := by unfold PHYSICS.MAX_SPEED; norm_num
    unfold FlightModel.velMaxClamped
    rw [if_neg hnotmax]
    rw [norm3_renorm _ _ hv (FlightModel.effectiveMinSpeed_nonneg i.airbrake)]
  · have hcs : FlightModel.effectiveMinSpeed i.airbrake ≤
        FlightModel.currentSpeedOf a i dt :=
      not_lt.mp (fun hh => h1 ⟨hh, hy2⟩)
    unfold FlightModel.velMaxClamped
    split_ifs with h2
    · have hne : FlightModel.velAfterAccel a i dt ≠ v3 0 0 0 := hv
      rw [norm3_renorm _ _ hne (by unfold PHYSICS.MAX_SPEED; norm_num)]
      calc FlightModel.effectiveMinSpeed i.airbrake
        ≤ 80 := FlightModel.effectiveMinSpeed_le i.airbrake
        _ ≤ PHYSICS.MAX_SPEED := by unfold PHYSICS.MAX_SPEED; norm_num
    · exact hcs

theorem FlightModel.postIntegrate_velocity_norm_le (a : AircraftState) (i : ControlIntent)
    (dt : ℝ) : norm3 (FlightModel.postIntegrate a i dt).velocity ≤
      norm3 (FlightModel.clampedVelocity a i dt) := by
  unfold FlightModel.postIntegrate
  dsimp only
  split_ifs with hg hv
  · exact norm3_zeroY_le _
  · exact le_refl _
  · exact le_refl _

theorem FlightModel.boundaryPhase_velocity_norm_le (s : AircraftState) :
    norm3 (FlightModel.boundaryPhase s).velocity ≤ norm3 s.velocity := by
  unfold FlightModel.boundaryPhase
  dsimp only
  split_ifs <;> first
    | exact le_refl _
    | exact horiz_blend_norm_le s.velocity _ (normSq3_normalize3_le_one _)

theorem FlightModel.update_speed_eq (a : AircraftState) (i : ControlIntent) (dt : ℝ)
    (h : a.alive = true) :
    (FlightModel.update a i dt).speed =
      norm3 (FlightModel.boundaryPhase (FlightModel.postIntegrate a i dt)).velocity := by
  unfold FlightModel.update
  rw [if_neg (by rw [h]; simp)]

/-- A live aircraft hovering at altitude 100 with exactly zero velocity. -/
def demoHoverAircraft : AircraftState :=
  { position := v3 0 100 0, velocity := v3 0 0 0, quaternion := quatIdentity,
    angularVelocity := v3 0 0 0, throttle := 0, speed := 0, health := 100,
    alive := true, gForce := 1, previousVelocity := v3 0 0 0 }

/-- A keyboard intent with everything zero and the airbrake off. -/
def demoZeroIntent : ControlIntent :=
  { pitch := 0, roll := 0, yaw := 0, throttle := 0, useMouseAim := false,
    mouseTargetDir := none, airbrake := false }

/-- Counterexample to C6: a live aircraft at altitude 100 (airborne, well
above the 50-altitude guard, airbrake off) with exactly zero velocity
still has speed 0 after the tick — far below MIN_SPEED_CLAMP.  The minimum
clamp renormalizes the zero vector, and THREE.normalize leaves the zero
vector unchanged, so the floor silently fails. -/
theorem speed_floor_counterexample :
    demoHoverAircraft.alive = true ∧
    demoZeroIntent.airbrake = false ∧
    (FlightModel.update demoHoverAircraft demoZeroIntent 0).position.y = 100 ∧
    (FlightModel.update demoHoverAircraft demoZeroIntent 0).speed = 0 ∧
    (FlightModel.update demoHoverAircraft demoZeroIntent 0).speed <
      PHYSICS.MIN_SPEED_CLAMP := by
  have hslow : norm3 demoHoverAircraft.velocity ≤ 20 := by
    rw [show demoHoverAircraft.velocity = v3 0 0 0 from rfl,
      (norm3_eq_zero_iff (v3 0 0 0)).mpr rfl]
    norm_num
  have hva : FlightModel.velAfterAccel demoHoverAircraft demoZeroIntent 0 = v3 0 0 0 := by
    unfold FlightModel.velAfterAccel
    rw [smul3_zero, add3_zero, FlightModel.postAttitude_velocity_of_slow _ _ _ hslow]
    rfl
  have hcs : FlightModel.currentSpeedOf demoHoverAircraft demoZeroIntent 0 = 0 := by
    unfold FlightModel.currentSpeedOf
    rw [hva, (norm3_eq_zero_iff (v3 0 0 0)).mpr rfl]
  have hvmax : FlightModel.velMaxClamped demoHoverAircraft demoZeroIntent 0 = v3 0 0 0 := by
    unfold FlightModel.velMaxClamped
    rw [hcs, hva, if_neg (by unfold PHYSICS.MAX_SPEED; norm_num)]
  have hvcl : FlightModel.clampedVelocity demoHoverAircraft demoZeroIntent 0 = v3 0 0 0 := by
    unfold FlightModel.clampedVelocity
    rw [hvmax, normalize3_zero, smul3_zero_vec]
    split_ifs <;> rfl
  have hraw : FlightModel.rawNewPosition demoHoverAircraft demoZeroIntent 0 = v3 0 100 0 := by
    unfold FlightModel.rawNewPosition
    rw [smul3_zero, add3_zero, FlightModel.postAttitude_position]
    rfl
  have hrawy : 0 ≤ (FlightModel.rawNewPosition demoHoverAircraft demoZeroIntent 0).y := by
    rw [hraw]
    unfold v3
    norm_num
  have hpi := FlightModel.postIntegrate_ground_skip demoHoverAircraft demoZeroIntent 0 hrawy
  have hbskip : FlightModel.boundaryPhase
      (FlightModel.postIntegrate demoHoverAircraft demoZeroIntent 0) =
      FlightModel.postIntegrate demoHoverAircraft demoZeroIntent 0 := by
    apply FlightModel.boundaryPhase_skip
    rw [hpi.2, hraw]
    unfold v3
    dsimp only
    rw [show (0:ℝ) * 0 + 0 * 0 = 0 by ring, Real.sqrt_zero]
    unfold WORLD.BOUNDARY_SOFT
    norm_num
  have hspeed : (FlightModel.update demoHoverAircraft demoZeroIntent 0).speed = 0 := by
    rw [FlightModel.update_speed_eq _ _ _ rfl, hbskip, hpi.1, hvcl,
      (norm3_eq_zero_iff (v3 0 0 0)).mpr rfl]
  have hpos : (FlightModel.update demoHoverAircraft demoZeroIntent 0).position.y = 100 := by
    unfold FlightModel.update
    rw [if_neg (by rw [show demoHoverAircraft.alive = true from rfl]; simp)]
    dsimp only
    rw [hbskip, hpi.2, hraw]
    rfl
  refine ⟨rfl, rfl, hpos, hspeed, ?_⟩
  rw [hspeed]
  unfold PHYSICS.MIN_SPEED_CLAMP
  norm_num

/-- C6 (amended): after a flight-integrator tick on a live aircraft, speed
never exceeds PHYSICS.MAX_SPEED; the minimum floor (MIN_SPEED_CLAMP, or
0.4 x MIN_SPEED_CLAMP with airbrake) holds only under guards: the
pre-clamp velocity is non-zero (the floor renormalizes and fails on the
zero vector), altitude exceeds 50, the tick does not hit the ground clamp,
and the aircraft ends the tick inside the soft world boundary (the
boundary blend can zero the velocity in degenerate cases). -/
theorem speed_clamps (a : AircraftState) (i : ControlIntent) (dt : ℝ)
    (halive : a.alive = true) :
    (FlightModel.update a i dt).speed ≤ PHYSICS.MAX_SPEED ∧
    (FlightModel.velAfterAccel a i dt ≠ v3 0 0 0 → 50 < a.position.y →
      0 ≤ (FlightModel.rawNewPosition a i dt).y →
      Real.sqrt ((FlightModel.postIntegrate a i dt).position.x *
          (FlightModel.postIntegrate a i dt).position.x +
        (FlightModel.postIntegrate a i dt).position.z *
          (FlightModel.postIntegrate a i dt).position.z) ≤ WORLD.BOUNDARY_SOFT →
      FlightModel.effectiveMinSpeed i.airbrake ≤ (FlightModel.update a i dt).speed) := by
  have hsp := FlightModel.update_speed_eq a i dt halive
  constructor
  · rw [hsp]
    calc norm3 (FlightModel.boundaryPhase (FlightModel.postIntegrate a i dt)).velocity
        ≤ norm3 (FlightModel.postIntegrate a i dt).velocity :=
          FlightModel.boundaryPhase_velocity_norm_le _
      _ ≤ norm3 (FlightModel.clampedVelocity a i dt) :=
          FlightModel.postIntegrate_velocity_norm_le a i dt
      _ ≤ PHYSICS.MAX_SPEED := FlightModel.clampedVelocity_le_max a i dt
  · intro hv hy hrawy hsoft
    rw [hsp, FlightModel.boundaryPhase_skip _ hsoft,
      (FlightModel.postIntegrate_ground_skip a i dt hrawy).1]
    exact FlightModel.clampedVelocity_floor a i dt hv hy

/-- Witness for the amended C6: on the level-flight demo aircraft with zero
intent and dt = 0, all guards hold, so both the maximum bound and the
minimum floor hold concretely. -/
theorem speed_clamps_witness :
    (FlightModel.update demoAircraftFlying demoZeroIntent 0).speed ≤ PHYSICS.MAX_SPEED ∧
    FlightModel.effectiveMinSpeed demoZeroIntent.airbrake ≤
      (FlightModel.update demoAircraftFlying demoZeroIntent 0).speed := by
  have hva : FlightModel.velAfterAccel demoAircraftFlying demoZeroIntent 0 = v3 100 0 0 := by
    unfold FlightModel.velAfterAccel
    rw [smul3_zero, add3_zero, FlightModel.postAttitude_velocity_dtzero]
    rfl
  have hraw : FlightModel.rawNewPosition demoAircraftFlying demoZeroIntent 0 = v3 0 100 0 := by
    unfold FlightModel.rawNewPosition
    rw [smul3_zero, add3_zero, FlightModel.postAttitude_position]
    rfl
  have hrawy : 0 ≤ (FlightModel.rawNewPosition demoAircraftFlying demoZeroIntent 0).y := by
    rw [hraw]
    unfold v3
    norm_num
  have h := speed_clamps demoAircraftFlying demoZeroIntent 0 rfl
  refine ⟨h.1, h.2 ?_ ?_ hrawy ?_⟩
  · rw [hva]
    intro hzero
    have hx := congrArg Vec3.x hzero
    unfold v3 at hx
    dsimp only at hx
    norm_num at hx
  · show (50 : ℝ) < 100
    norm_num
  · rw [(FlightModel.postIntegrate_ground_skip demoAircraftFlying demoZeroIntent 0 hrawy).2,
      hraw]
    unfold v3
    dsimp only
    rw [show (0:ℝ) * 0 + 0 * 0 = 0 by ring, Real.sqrt_zero]
    unfold WORLD.BOUNDARY_SOFT
    norm_num

/-! ## C9: hard world-boundary clamp -/

theorem FlightModel.update_position (a : AircraftState) (i : ControlIntent) (dt : ℝ)
    (h : a.alive = true) :
    (FlightModel.update a i dt).position =
      (FlightModel.boundaryPhase (FlightModel.postIntegrate a i dt)).position := by
  unfold FlightModel.update
  rw [if_neg (by rw [h]; simp)]

theorem FlightModel.boundaryPhase_position_hard (s : AircraftState)
    (h : WORLD.BOUNDARY_HARD <
      Real.sqrt (s.position.x * s.position.x + s.position.z * s.position.z)) :
    (FlightModel.boundaryPhase s).position =
      ⟨s.position.x * (WORLD.BOUNDARY_HARD /
          Real.sqrt (s.position.x * s.position.x + s.position.z * s.position.z)),
        s.position.y,
        s.position.z * (WORLD.BOUNDARY_HARD /
          Real.sqrt (s.position.x * s.position.x + s.position.z * s.position.z))⟩ := by
  have hsoft : WORLD.BOUNDARY_SOFT <
      Real.sqrt (s.position.x * s.position.x + s.position.z * s.position.z) := by
    refine lt_trans ?_ h
    unfold WORLD.BOUNDARY_SOFT WORLD.BOUNDARY_HARD
    norm_num
  unfold FlightModel.boundaryPhase
  dsimp only
  rw [if_pos hsoft]
  split_ifs with h1 h2 h3 h4 h5 h6
  all_goals try rfl
  all_goals exact absurd h (by assumption)

theorem sqrt_rescale (x z H : ℝ) (hH : 0 < H) (h : H < Real.sqrt (x * x + z * z)) :
    Real.sqrt (x * (H / Real.sqrt (x * x + z * z)) * (x * (H / Real.sqrt (x * x + z * z))) +
      z * (H / Real.sqrt (x * x + z * z)) * (z * (H / Real.sqrt (x * x + z * z)))) = H := by
  set d := Real.sqrt (x * x + z * z) with hd
  have hdpos : 0 < d := lt_trans hH h
  have hdd : d * d = x * x + z * z :=
    Real.mul_self_sqrt (add_nonneg (mul_self_nonneg x) (mul_self_nonneg z))
  have h2 : H / d * d = H := div_mul_cancel₀ H (ne_of_gt hdpos)
  have hsum : x * (H / d) * (x * (H / d)) + z * (H / d) * (z * (H / d)) = H * H := by
    calc x * (H / d) * (x * (H / d)) + z * (H / d) * (z * (H / d))
        = (x * x + z * z) * ((H / d) * (H / d)) := by ring
      _ = d * d * ((H / d) * (H / d)) := by rw [hdd]
      _ = (H / d * d) * (H / d * d) := by ring
      _ = H * H := by rw [h2]
  rw [hsum, Real.sqrt_mul_self (le_of_lt hH)]

/-- C9: for a live aircraft whose post-integration position lies beyond the
hard boundary radius (horizontal distance from the map center), the same
tick rescales position.x and position.z so that the aircraft ends the tick
exactly on the hard-radius circle. -/
theorem hard_boundary_clamp (a : AircraftState) (i : ControlIntent) (dt : ℝ)
    (halive : a.alive = true)
    (h : WORLD.BOUNDARY_HARD <
      Real.sqrt ((FlightModel.postIntegrate a i dt).position.x *
          (FlightModel.postIntegrate a i dt).position.x +
        (FlightModel.postIntegrate a i dt).position.z *
          (FlightModel.postIntegrate a i dt).position.z)) :
    Real.sqrt ((FlightModel.update a i dt).position.x *
        (FlightModel.update a i dt).position.x +
      (FlightModel.update a i dt).position.z *
        (FlightModel.update a i dt).position.z) = WORLD.BOUNDARY_HARD := by
  rw [FlightModel.update_position a i dt halive,
    FlightModel.boundaryPhase_position_hard _ h]
  dsimp only
  exact sqrt_rescale _ _ _ (by unfold WORLD.BOUNDARY_HARD; norm_num) h

/-- A live aircraft that ended integration far outside the hard boundary. -/
def demoFarAircraft : AircraftState :=
  { position := v3 9300 30 0, velocity := v3 0 0 (-10), quaternion := quatIdentity,
    angularVelocity := v3 0 0 0, throttle := 0.5, speed := 10, health := 100,
    alive := true, gForce := 1, previousVelocity := v3 0 0 (-10) }

/-- Witness for C9: the aircraft at horizontal distance 9300 ends the tick
exactly on the 9000 circle. -/
theorem hard_boundary_clamp_witness :
    Real.sqrt ((FlightModel.update demoFarAircraft demoZeroIntent 0).position.x *
        (FlightModel.update demoFarAircraft demoZeroIntent 0).position.x +
      (FlightModel.update demoFarAircraft demoZeroIntent 0).position.z *
        (FlightModel.update demoFarAircraft demoZeroIntent 0).position.z) =
      WORLD.BOUNDARY_HARD := by
  have hraw : FlightModel.rawNewPosition demoFarAircraft demoZeroIntent 0 = v3 9300 30 0 := by
    unfold FlightModel.rawNewPosition
    rw [smul3_zero, add3_zero, FlightModel.postAttitude_position]
    rfl
  have hrawy : 0 ≤ (FlightModel.rawNewPosition demoFarAircraft demoZeroIntent 0).y := by
    rw [hraw]
    unfold v3
    norm_num
  have hpp : (FlightModel.postIntegrate demoFarAircraft demoZeroIntent 0).position =
      v3 9300 30 0 := by
    rw [(FlightModel.postIntegrate_ground_skip demoFarAircraft demoZeroIntent 0 hrawy).2, hraw]
  have hhyp : WORLD.BOUNDARY_HARD <
      Real.sqrt ((FlightModel.postIntegrate demoFarAircraft demoZeroIntent 0).position.x *
          (FlightModel.postIntegrate demoFarAircraft demoZeroIntent 0).position.x +
        (FlightModel.postIntegrate demoFarAircraft demoZeroIntent 0).position.z *
          (FlightModel.postIntegrate demoFarAircraft demoZeroIntent 0).position.z) := by
    rw [hpp]
    unfold v3
    dsimp only
    rw [show (9300:ℝ) * 9300 + 0 * 0 = 9300 * 9300 by ring,
      Real.sqrt_mul_self (by norm_num : (0:ℝ) ≤ 9300)]
    unfold WORLD.BOUNDARY_HARD
    norm_num
  exact hard_boundary_clamp demoFarAircraft demoZeroIntent 0 rfl hhyp
